import Mathlib

/-!
# SP-share: quota evaluation, item-type detection, authentication and approval workflow

A shallow embedding of the parts of the `sp-share` Go application that decide
whether an upload is admitted (`app/models/item.go`), how a file name is mapped to
an item type (`app/models/item-type.go`), which session users the
`Authenticate` interceptor lets through (`app/auth/authentication.go`), and how
groups, users and memberships are created and moved through the approval workflow
(`app/models/group.go`, `app/models/user.go`, `app/models/user-group-map.go`,
`app/controllers/requests.go`, `app/controllers/group.go`).

Conventions of the embedding

* The relational database is a record of row lists (`Store`).  A primary-key
  `Select` is a `find?` on the table and fails when no row matches.
  `database.GetClient` parses a constant URL and connects lazily, so it returns
  no error.  A statement that is cut off in transit or refused by the database is
  an explicit input where a property is about it (`insertUserGroupMap`,
  `Group.AddAt`); elsewhere every statement reaches the database.
* The table declarations are not among the sources.  The keys are the fields
  tagged `pk` in the models; the unique group name and the report of an insert
  that meets it are taken from the spec and are stated at `insertGroup`.  An
  insert into a table with a generated key takes the key the database draws as an
  extra argument.
* A controller action takes the store and the controller and returns both
  together with the `revel.Result`; flash messages are entries of the outgoing
  flash map under the keys "error" and "success".
* Go `int`/`int64` values are `Int`; none of the embedded code does integer
  arithmetic that could wrap.
* Go `float32` values are `F32`: IEEE-754 binary32 with round-to-nearest,
  ties-to-even, every operation rounded on its own.  A finite value is stored as
  the integer number of units of `2^(-149)` (the smallest subnormal), which makes
  the representation canonical; the sign of zero is not tracked.
* A Go `error` of the quota evaluator is a value of `Err`, one constructor per
  `fmt.Errorf` call site, rendered by `Err.Error`; elsewhere an error is its
  message.
* Go strings are Lean strings, so file names are valid UTF-8.
* Logging calls have no influence on results and are left out.
-/

namespace SPShare

/-! ## binary32 arithmetic -/

/-- Go `float32`.  The value `fin n` is the finite number `n * 2^(-149)`. -/
inductive F32 where
  | fin (n : Int)
  | inf (negative : Bool)
  | nan
  deriving DecidableEq, Repr

namespace F32

/-- Halving loop behind `bitLength`; the first argument bounds the number of steps. -/
def bitLengthAux : Nat → Nat → Nat
  | 0, _ => 0
  | fuel + 1, N => if N = 0 then 0 else bitLengthAux fuel (N / 2) + 1

/-- Number of binary digits of a natural number (0 for 0).  `N` halvings always
reach 0, so the step bound `N` is never the reason the loop stops. -/
def bitLength (N : Nat) : Nat :=
  bitLengthAux N N

/-- Round the non-negative real `N / 2^k`, measured in units of `2^(-149)`, to the
nearest value with a 24-bit significand on the binary32 grid (ties to even).
The result is again a number of units. -/
def roundUnits (N k : Nat) : Nat :=
  let s := max k (bitLength N - 24)
  let q := N / 2 ^ s
  let r := N % 2 ^ s
  let q1 := if 2 ^ s < 2 * r ∨ (2 * r = 2 ^ s ∧ q % 2 = 1) then q + 1 else q
  q1 * 2 ^ (s - k)

/-- First magnitude (in units) that is no longer finite: `2^128 = 2^277` units. -/
def overflowUnits : Nat := 2 ^ 128 * 2 ^ 149

/-- Signed rounding of the magnitude `N / 2^k` units, overflowing to infinity. -/
def round (negative : Bool) (N k : Nat) : F32 :=
  let u := roundUnits N k
  if overflowUnits ≤ u then inf negative
  else fin (if negative then -(u : Int) else (u : Int))

/-- Conversion `float32(x)` of an integer. -/
def ofInt (x : Int) : F32 :=
  round (decide (x < 0)) (x.natAbs * 2 ^ 149) 0

/-- Product `a * b` of two `float32` values. -/
def mul : F32 → F32 → F32
  | fin a, fin b => round (xor (decide (a < 0)) (decide (b < 0))) (a.natAbs * b.natAbs) 149
  | fin a, inf t => if a = 0 then nan else inf (xor (decide (a < 0)) t)
  | inf s, fin b => if b = 0 then nan else inf (xor s (decide (b < 0)))
  | inf s, inf t => inf (xor s t)
  | nan, _ => nan
  | _, nan => nan

/-- Sum `a + b` of two `float32` values. -/
def add : F32 → F32 → F32
  | fin a, fin b => round (decide (a + b < 0)) (a + b).natAbs 0
  | fin _, inf t => inf t
  | inf s, fin _ => inf s
  | inf s, inf t => if s = t then inf s else nan
  | nan, _ => nan
  | _, nan => nan

/-- Comparison `a < b`; every comparison with NaN is false. -/
def lt : F32 → F32 → Bool
  | fin a, fin b => decide (a < b)
  | fin _, inf t => !t
  | inf s, fin _ => s
  | inf s, inf t => s && !t
  | nan, _ => false
  | _, nan => false

/-- Comparison `a > b`. -/
def gt (a b : F32) : Bool := lt b a

/-- Comparison `a == b`; NaN is equal to nothing. -/
def eq : F32 → F32 → Bool
  | fin a, fin b => decide (a = b)
  | inf s, inf t => decide (s = t)
  | _, _ => false

/-- Three decimal digits, zero padded. -/
def pad3 (n : Nat) : String :=
  if n < 10 then "00" ++ toString n
  else if n < 100 then "0" ++ toString n
  else toString n

/-- Rendering of the verb `%.3f`: the exact value rounded to three decimals,
ties to even. -/
def format3 : F32 → String
  | nan => "NaN"
  | inf false => "+Inf"
  | inf true => "-Inf"
  | fin n =>
    let a := n.natAbs * 1000
    let q := a / 2 ^ 149
    let r := a % 2 ^ 149
    let t := if 2 ^ 149 < 2 * r ∨ (2 * r = 2 ^ 149 ∧ q % 2 = 1) then q + 1 else q
    (if n < 0 then "-" else "") ++ toString (t / 1000) ++ "." ++ pad3 (t % 1000)

end F32

/-- The constant `MB = 1e-06` at type `float32`: the binary32 number nearest to
`10^(-6)`, bit pattern `0x358637BD`, that is `8796093 * 2^(-43)`. -/
def MB : F32 := F32.fin (8796093 * 2 ^ 106)

/-! ## Constants of `app/common/constants.go` -/

/-- `WorkflowStatus` enumeration, stored as a small integer. -/
inductive WorkflowStatus where
  | WorkflowStatusPending
  | WorkflowStatusApproved
  | WorkflowStatusRejected
  deriving DecidableEq, Repr

/-- `WorkflowStatus.GetStatusID`. -/
def WorkflowStatus.GetStatusID : WorkflowStatus → Int
  | .WorkflowStatusPending => 0
  | .WorkflowStatusApproved => 1
  | .WorkflowStatusRejected => 2

/-- `ItemType` enumeration of `common`. -/
inductive ItemKind where
  | ItemTypeUnknown
  | ItemTypePictures
  | ItemTypeVideos
  deriving DecidableEq, Repr

/-- `ItemType.GetItemID`. -/
def ItemKind.GetItemID : ItemKind → Int
  | .ItemTypeUnknown => 0
  | .ItemTypePictures => 1
  | .ItemTypeVideos => 2

/-! ## Rows and the store -/

/-- Row of table `AppUser` (`models.User`), timestamps left out. -/
structure User where
  UserID : Int := 0
  FirstName : String := ""
  LastName : String := ""
  Email : String := ""
  Username : String := ""
  Password : String := ""
  IsAdmin : Bool := false
  WorkflowStatus : Int := 0
  MaxItemCount : Int := 0
  MaxItemSpace : F32 := F32.fin 0
  deriving DecidableEq, Repr

/-- Row of table `Groups` (`models.Group`), timestamps left out. -/
structure Group where
  GroupID : Int := 0
  GroupName : String := ""
  CreatedBy : Int := 0
  WorkflowStatus : Int := 0
  MaxItemCount : Int := 0
  MaxItemSpace : F32 := F32.fin 0
  deriving DecidableEq, Repr

/-- Row of table `Items` (`models.Item`), timestamps left out. -/
structure Item where
  ItemID : Int := 0
  ItemName : String := ""
  Description : String := ""
  ItemTypeID : Int := 0
  ItemSize : Int := 0
  GroupID : Int := 0
  Uploaded : Bool := false
  ItemPath : String := ""
  CreatedBy : Int := 0
  deriving DecidableEq, Repr

/-- Row of table `ItemTypes` (`models.ItemType`). -/
structure ItemType where
  ItemTypeID : Int := 0
  ItemTypeName : String := ""
  MaxItemCount : Int := 0
  MaxItemSpace : F32 := F32.fin 0
  deriving DecidableEq, Repr

/-- Row of table `UserGroupMap` (`models.UserGroupMap`), timestamps left out. -/
structure UserGroupMap where
  UserID : Int := 0
  GroupID : Int := 0
  IsLeader : Bool := false
  CreatedBy : Int := 0
  WorkflowStatus : Int := 0
  deriving DecidableEq, Repr

/-- Contents of the database tables read and written by the embedded code. -/
structure Store where
  users : List User := []
  groups : List Group := []
  items : List Item := []
  itemTypes : List ItemType := []
  userGroupMaps : List UserGroupMap := []
  deriving DecidableEq, Repr

/-- Errors produced by the quota evaluator, one per `fmt.Errorf` site. -/
inductive Err where
  | itemUnavailable
  | fetchUserLimits
  | userItemCount (max : Int)
  | userItemSpace (max : F32)
  | groupItemCount (max : Int)
  | groupItemSpace (max : F32)
  | fetchItemTypeLimits
  | itemTypeSize (name : String) (max : F32)
  deriving DecidableEq, Repr

/-- Message of an error (`err.Error()`). -/
def Err.Error : Err → String
  | .itemUnavailable => "Item details unavailable"
  | .fetchUserLimits => "Unable to fetch upload limits for the user"
  | .userItemCount max => "User is limited to upload only " ++ toString max ++ " items"
  | .userItemSpace max => "User is limited to " ++ max.format3 ++ " MB of space for uploads"
  | .groupItemCount max => "Only " ++ toString max ++ " items can be uploaded in the group"
  | .groupItemSpace max => "The group is limited to " ++ max.format3 ++ " MB of space for uploads"
  | .fetchItemTypeLimits => "Unable to fetch upload limits for the item type"
  | .itemTypeSize name max =>
    "Maximum allowed file size for item-type - \x27" ++ name ++ "\x27 is " ++ max.format3 ++ " MB"

/-- Database round trips, recorded in the order they are issued. -/
inductive Query where
  | selectUser (userID : Int)
  | aggregateItemsOfUser (userID : Int)
  | selectGroup (groupID : Int)
  | aggregateItemsOfGroup (groupID : Int)
  | selectItemType (itemTypeID : Int)
  deriving DecidableEq, Repr

/-- Result of a check: the returned error (`none` for `nil`) and the queries issued. -/
structure Outcome where
  err : Option Err
  queries : List Query
  deriving DecidableEq, Repr

/-! ## Data access of `app/models` -/

/-- `GetUserByUserID`: primary-key select on `AppUser`; `none` is the error
branch (no such row). -/
def GetUserByUserID (s : Store) (userID : Int) : Option User :=
  s.users.find? (fun u => u.UserID == userID)

/-- `GetGroupDetailUsingID`: primary-key select on `Groups`. -/
def GetGroupDetailUsingID (s : Store) (groupID : Int) : Option Group :=
  s.groups.find? (fun g => g.GroupID == groupID)

/-- `GetItemTypeDetails`: primary-key select on `ItemTypes`. -/
def GetItemTypeDetails (s : Store) (itemTypeID : Int) : Option ItemType :=
  s.itemTypes.find? (fun t => t.ItemTypeID == itemTypeID)

/-- Scan of the column `sum(item_size)` into a `float32` variable.  Over no rows
the sum is NULL and the variable keeps its zero value; otherwise the exact
integer sum is converted to the nearest binary32 value, and a sum beyond the
binary32 range is a scan error (`none`). -/
def scanTotalSize (rows : List Item) : Option F32 :=
  match rows with
  | [] => some (F32.fin 0)
  | _ :: _ =>
    match F32.ofInt (rows.map (fun i => i.ItemSize)).sum with
    | F32.fin n => some (F32.fin n)
    | _ => none

/-- Aggregate `count(*), sum(item_size)` over the selected rows, the size
returned in MB (`totalSize * MB`). -/
def aggregate (rows : List Item) : Option (Int × F32) :=
  match scanTotalSize rows with
  | none => none
  | some totalSize => some ((rows.length : Int), F32.mul totalSize MB)

/-- `getLimitUtilizationForUser`: rows with `created_by = userID`. -/
def getLimitUtilizationForUser (s : Store) (userID : Int) : Option (Int × F32) :=
  aggregate (s.items.filter (fun i => i.CreatedBy == userID))

/-- `getLimitUtilizationForGroup`: rows with `group_id = groupID`. -/
def getLimitUtilizationForGroup (s : Store) (groupID : Int) : Option (Int × F32) :=
  aggregate (s.items.filter (fun i => i.GroupID == groupID))

/-! ## The quota evaluator of `app/models/item.go` -/

/-- `Item.checkPerUserLimits`. -/
def checkPerUserLimits (s : Store) (model : Item) (fileSizeInMB : F32) : Outcome :=
  match GetUserByUserID s model.CreatedBy with
  | none => ⟨some Err.fetchUserLimits, [Query.selectUser model.CreatedBy]⟩
  | some user =>
    let issued := [Query.selectUser model.CreatedBy, Query.aggregateItemsOfUser model.CreatedBy]
    match getLimitUtilizationForUser s model.CreatedBy with
    | none => ⟨some Err.fetchUserLimits, issued⟩
    | some (count, size) =>
      if !(decide (count < user.MaxItemCount)) then
        ⟨some (Err.userItemCount user.MaxItemCount), issued⟩
      else if !(F32.lt (F32.add size fileSizeInMB) user.MaxItemSpace) then
        ⟨some (Err.userItemSpace user.MaxItemSpace), issued⟩
      else ⟨none, issued⟩

/-- `Item.checkPerGroupLimit`. -/
def checkPerGroupLimit (s : Store) (model : Item) (fileSizeInMB : F32) : Outcome :=
  match GetGroupDetailUsingID s model.GroupID with
  | none => ⟨some Err.fetchUserLimits, [Query.selectGroup model.GroupID]⟩
  | some group =>
    let issued := [Query.selectGroup model.GroupID, Query.aggregateItemsOfGroup model.GroupID]
    match getLimitUtilizationForGroup s model.GroupID with
    | none => ⟨some Err.fetchUserLimits, issued⟩
    | some (count, size) =>
      if !(decide (count < group.MaxItemCount)) then
        ⟨some (Err.groupItemCount group.MaxItemCount), issued⟩
      else if !(F32.lt (F32.add size fileSizeInMB) group.MaxItemSpace) then
        ⟨some (Err.groupItemSpace group.MaxItemSpace), issued⟩
      else ⟨none, issued⟩

/-- `Item.checkPerItemTypeLimit`. -/
def checkPerItemTypeLimit (s : Store) (model : Item) (fileSizeInMB : F32) : Outcome :=
  match GetItemTypeDetails s model.ItemTypeID with
  | none => ⟨some Err.fetchItemTypeLimits, [Query.selectItemType model.ItemTypeID]⟩
  | some itemType =>
    let issued := [Query.selectItemType model.ItemTypeID, Query.aggregateItemsOfGroup model.GroupID]
    match getLimitUtilizationForGroup s model.GroupID with
    | none => ⟨some Err.fetchItemTypeLimits, issued⟩
    | some _ =>
      if F32.gt fileSizeInMB itemType.MaxItemSpace then
        ⟨some (Err.itemTypeSize itemType.ItemTypeName itemType.MaxItemSpace), issued⟩
      else ⟨none, issued⟩

/-- The value `fileSizeInMB := float32(model.ItemSize) * MB` of `CheckLimits`. -/
def fileSizeMB (model : Item) : F32 :=
  F32.mul (F32.ofInt model.ItemSize) MB

/-- `Item.CheckLimits`; the receiver is a pointer, `none` is the nil receiver. -/
def CheckLimits (s : Store) (receiver : Option Item) : Outcome :=
  match receiver with
  | none => ⟨some Err.itemUnavailable, []⟩
  | some model =>
    let fileSizeInMB := fileSizeMB model
    let r1 := checkPerUserLimits s model fileSizeInMB
    match r1.err with
    | some e => ⟨some e, r1.queries⟩
    | none =>
      let r2 := checkPerGroupLimit s model fileSizeInMB
      match r2.err with
      | some e => ⟨some e, r1.queries ++ r2.queries⟩
      | none =>
        let r3 := checkPerItemTypeLimit s model fileSizeInMB
        match r3.err with
        | some e => ⟨some e, r1.queries ++ r2.queries ++ r3.queries⟩
        | none => ⟨none, r1.queries ++ r2.queries ++ r3.queries⟩

/-- The row sent by `Item.Add`: a zero `ItemID` is filled in by the database. -/
def Item.insertedRow (model : Item) (assigned : Int) : Item :=
  if model.ItemID = 0 then { model with ItemID := assigned } else model

/-- `Item.Add`: insert of the metadata row with `ON CONFLICT DO NOTHING`.  The
controller leaves `ItemID` at its zero value, so the key is the value `assigned`
drawn by the database; `none` is the nil error, and zero affected rows is the
error "Unable to add the item at the moment". -/
def Item.Add (s : Store) (model : Item) (assigned : Int) : Store × Option String :=
  if s.items.any (fun i => i.ItemID == (Item.insertedRow model assigned).ItemID) then
    (s, some "Unable to add the item at the moment")
  else
    ({ s with items := s.items ++ [Item.insertedRow model assigned] }, none)

/-- Store after a run of `Item.Add` calls, each with the key the database assigned. -/
def addAll (s : Store) : List (Item × Int) → Store
  | [] => s
  | (model, assigned) :: rest => addAll (Item.Add s model assigned).1 rest

/-- Every `Item.Add` of the run returned nil. -/
def allAdded (s : Store) : List (Item × Int) → Bool
  | [] => true
  | (model, assigned) :: rest =>
    (Item.Add s model assigned).2.isNone && allAdded (Item.Add s model assigned).1 rest

/-! ## Item-type detection of `app/models/item-type.go` -/

/-- `supportedImageTypes`. -/
def supportedImageTypes : List String := ["jpg", "jpeg", "png"]

/-- `supportedVideoTypes`. -/
def supportedVideoTypes : List String := ["mp4"]

/-- `strings.Split` with a one-character separator, on the characters of the
string: the pieces between consecutive separators, at least one piece. -/
def splitChars (sep : Char) : List Char → List (List Char)
  | [] => [[]]
  | c :: cs =>
    if c = sep then [] :: splitChars sep cs
    else
      match splitChars sep cs with
      | [] => [[c]]
      | piece :: pieces => (c :: piece) :: pieces

/-- `strings.Split(s, ".")`. -/
def splitDot (s : String) : List String :=
  (splitChars '.' s.data).map String.mk

/-- One `for ... range` loop of `GetItemType`: the first supported type equal to
the extension sets the item type and leaves the loop. -/
def scanTypes (types : List String) (extension : String) (found current : ItemKind) : ItemKind :=
  match types with
  | [] => current
  | t :: rest => if t = extension then found else scanTypes rest extension found current

/-- `GetItemType`: item type, extension and error (`none` for nil). -/
def GetItemType (filename : String) : ItemKind × String × Option String :=
  let parts := splitDot filename
  if parts.length < 2 then
    (ItemKind.ItemTypeUnknown, "", some "Invalid file type. File extension not available")
  else
    let extension := parts.getD 1 ""
    let itemType := scanTypes supportedImageTypes extension ItemKind.ItemTypePictures
      ItemKind.ItemTypeUnknown
    let itemType := scanTypes supportedVideoTypes extension ItemKind.ItemTypeVideos itemType
    if itemType = ItemKind.ItemTypeUnknown then
      (itemType, extension,
        some ("Invalid file type - \x27" ++ extension ++
          "\x27. Supported types - pictures (\x27jpg\x27, \x27jpeg\x27 and \x27png\x27) and videos (\x27mp4\x27)"))
    else
      (itemType, extension, none)

/-! ## The interceptor of `app/auth/authentication.go` -/

/-- Redirect targets used by `Authenticate` and by the controller actions. -/
inductive Action where
  | AccountIndex
  | AccountUnauthorized
  | HomeIndex
  | GroupIndex
  | RequestsGroups
  | RequestsUsers
  | RequestsGroupAccess
  | ItemUpload
  | GroupDetails
  deriving DecidableEq, Repr

/-- A `revel.Result`; the embedded code only ever builds redirects. -/
inductive Result where
  | Redirect (target : Action)
  deriving DecidableEq, Repr

/-- The part of `revel.Controller` the interceptor touches: what
`Session.GetInto("user", ...)` yields (`none` when it returns an error) and the
outgoing flash map. -/
structure Controller where
  sessionUser : Option User := none
  flashOut : List (String × String) := []
  deriving DecidableEq, Repr

/-- Assignment `m[key] = value` on a map kept as an association list. -/
def setKey (m : List (String × String)) (key value : String) : List (String × String) :=
  (key, value) :: m.filter (fun p => p.1 != key)

/-- `User.GetUserID`, `none` being the nil receiver. -/
def User.GetUserID (model : Option User) : Int :=
  match model with
  | none => -1
  | some u => u.UserID

/-- `User.GetUserName`, `none` being the nil receiver. -/
def User.GetUserName (model : Option User) : String :=
  match model with
  | none => ""
  | some u => u.FirstName ++ " " ++ u.LastName

/-- `Authenticate`: the controller afterwards and the returned result; `none` is
the nil result, with which the intercepted action goes on to run. -/
def Authenticate (c : Controller) : Controller × Option Result :=
  match c.sessionUser with
  | none => (c, some (Result.Redirect Action.AccountIndex))
  | some user =>
    let c1 := { c with flashOut := setKey c.flashOut "userID" (toString (User.GetUserID (some user))) }
    let c2 := { c1 with flashOut := setKey c1.flashOut "loggedInUser" (User.GetUserName (some user)) }
    if user.WorkflowStatus = WorkflowStatus.WorkflowStatusPending.GetStatusID then
      (c2, some (Result.Redirect Action.AccountUnauthorized))
    else
      (c2, none)

/-! ## Writes of `app/models/group.go`, `user.go` and `user-group-map.go` -/

/-- The error text "Unable to process the request". -/
def unableToProcess : String := "Unable to process the request"

/-- The error text "Unable to perform the action at the moment". -/
def unableToPerform : String := "Unable to perform the action at the moment"

/-- The row sent by the insert of `Group.Add`: a zero `GroupID` is filled in by the
database. -/
def Group.insertedRow (model : Group) (assigned : Int) : Group :=
  if model.GroupID = 0 then { model with GroupID := assigned } else model

/-- Modelled from the spec: neither the declaration of table `Groups` nor the
database driver is among the sources.  The key is `group_id` (the `pk` tag of
`models.Group`), the group name carries a unique constraint, and an insert that
meets an existing key or name writes nothing and is reported to the caller as a
failure (spec 4.2: "If the group name already exists, the insert is a no-op
(idempotent on unique constraint) and is reported as failure to the caller"; the
insert carries `Returning("*")`, and the driver reports a statement that returns no
row as an error).  This is the insert of `Group.Add` with `Returning("*")` and
`ON CONFLICT DO NOTHING`: `none` is the branch `err != nil`, with nothing written
and the model left as it was; otherwise the row is appended and read back into the
model.  `assigned` is the key the database draws for a model whose `GroupID` is
zero. -/
def insertGroup (s : Store) (model : Group) (assigned : Int) : Option (Store × Group) :=
  if s.groups.any (fun g => g.GroupID == (Group.insertedRow model assigned).GroupID
      || g.GroupName == (Group.insertedRow model assigned).GroupName) then
    none
  else
    some ({ s with groups := s.groups ++ [Group.insertedRow model assigned] },
      Group.insertedRow model assigned)

/-- The insert `Model(row).OnConflict("DO NOTHING").Insert()` into table
`UserGroupMap`, whose key is the pair `(user_id, group_id)` (the `pk` tags of
`models.UserGroupMap`): an existing pair leaves the table as it is with zero
affected rows, a new pair appends the row.  `failed` says that the statement did
not reach the database or was refused by it: this is the branch `err != nil`,
`none`, with nothing written. -/
def insertUserGroupMap (s : Store) (row : UserGroupMap) (failed : Bool) :
    Option (Store × Nat) :=
  if failed then none
  else if s.userGroupMaps.any (fun m => m.UserID == row.UserID && m.GroupID == row.GroupID) then
    some (s, 0)
  else
    some ({ s with userGroupMaps := s.userGroupMaps ++ [row] }, 1)

/-- Primary-key select on `UserGroupMap`; `none` is the error branch (no such row). -/
def selectUserGroupMap (s : Store) (userID groupID : Int) : Option UserGroupMap :=
  s.userGroupMaps.find? (fun m => m.UserID == userID && m.GroupID == groupID)

/-- Update `... WherePK().Set(...)` on `UserGroupMap`: the rows with the given key are
rewritten by `assign`; the second component is the number of affected rows. -/
def updateUserGroupMap (s : Store) (userID groupID : Int)
    (assign : UserGroupMap → UserGroupMap) : Store × Nat :=
  let rows := s.userGroupMaps.map
    (fun m => if m.UserID == userID && m.GroupID == groupID then assign m else m)
  let affected :=
    (s.userGroupMaps.filter (fun m => m.UserID == userID && m.GroupID == groupID)).length
  ({ s with userGroupMaps := rows }, affected)

/-- `Group.Add`, with the fate of its second statement as an input: `failed` says
that the insert of the membership row did not reach the database or was refused.
The result is the store and the model afterwards and the returned error (`none` for
nil).  An error of the first insert ends the call; otherwise the membership row of
the creator is built from the model as the first insert left it. -/
def Group.AddAt (failed : Bool) (s : Store) (model : Group) (assigned : Int) :
    Store × Group × Option String :=
  match insertGroup s model assigned with
  | none => (s, model, some "Unable to create user group at the moment")
  | some inserted =>
    let userGroupMap : UserGroupMap :=
      { UserID := inserted.2.CreatedBy
        GroupID := inserted.2.GroupID
        CreatedBy := inserted.2.CreatedBy
        IsLeader := true
        WorkflowStatus := WorkflowStatus.WorkflowStatusApproved.GetStatusID }
    let model1 : Group :=
      { inserted.2 with WorkflowStatus := WorkflowStatus.WorkflowStatusPending.GetStatusID }
    match insertUserGroupMap inserted.1 userGroupMap failed with
    | none => (inserted.1, model1, some unableToProcess)
    | some res =>
      if res.2 < 1 then (res.1, model1, some unableToProcess)
      else (res.1, model1, none)

/-- `Group.Add` when both statements reach the database. -/
def Group.Add (s : Store) (model : Group) (assigned : Int) : Store × Group × Option String :=
  Group.AddAt false s model assigned

/-- `Group.ApproveOrReject`: sets `workflow_status` of the rows with the key of the
model; no affected row is an error. -/
def Group.ApproveOrReject (s : Store) (model : Group) (approve : Bool) : Store × Option String :=
  let actionID :=
    if approve then WorkflowStatus.WorkflowStatusApproved
    else WorkflowStatus.WorkflowStatusRejected
  let rows := s.groups.map (fun g =>
    if g.GroupID == model.GroupID then { g with WorkflowStatus := actionID.GetStatusID } else g)
  if (s.groups.filter (fun g => g.GroupID == model.GroupID)).length < 1 then
    (s, some unableToPerform)
  else
    ({ s with groups := rows }, none)

/-- `User.ApproveOrReject`: sets `workflow_status` of the rows with the key of the
model; no affected row is an error. -/
def User.ApproveOrReject (s : Store) (model : User) (approve : Bool) : Store × Option String :=
  let actionID :=
    if approve then WorkflowStatus.WorkflowStatusApproved
    else WorkflowStatus.WorkflowStatusRejected
  let rows := s.users.map (fun u =>
    if u.UserID == model.UserID then { u with WorkflowStatus := actionID.GetStatusID } else u)
  if (s.users.filter (fun u => u.UserID == model.UserID)).length < 1 then
    (s, some unableToPerform)
  else
    ({ s with users := rows }, none)

/-- `UserGroupMap.Add`, called by `userID` to add the member described by the model;
the insert reaches the database. -/
def UserGroupMap.Add (s : Store) (model : UserGroupMap) (userID : Int) : Store × Option String :=
  match selectUserGroupMap s userID model.GroupID with
  | none => (s, some unableToProcess)
  | some existingUserGroupMap =>
    if !existingUserGroupMap.IsLeader then
      (s, some "You do not have sufficient privileges to add users to the group")
    else
      match insertUserGroupMap s
          { model with WorkflowStatus := WorkflowStatus.WorkflowStatusApproved.GetStatusID }
          false with
      | none => (s, some unableToProcess)
      | some res =>
        if res.2 < 1 then (res.1, some unableToProcess)
        else (res.1, none)

/-- `UserGroupMap.UpgradeToGroupLead`; `none` is the nil receiver. -/
def UserGroupMap.UpgradeToGroupLead (s : Store) (receiver : Option UserGroupMap) :
    Store × Option String :=
  match receiver with
  | none => (s, some unableToPerform)
  | some model =>
    match selectUserGroupMap s model.UserID model.GroupID with
    | none => (s, some "User does not have access to the group")
    | some _ =>
      let updated := updateUserGroupMap s model.UserID model.GroupID (fun m =>
        { m with WorkflowStatus := WorkflowStatus.WorkflowStatusPending.GetStatusID
                 IsLeader := true })
      if updated.2 < 1 then (updated.1, some unableToPerform)
      else (updated.1, none)

/-- `UserGroupMap.ApproveOrReject`. -/
def UserGroupMap.ApproveOrReject (s : Store) (model : UserGroupMap) (approve : Bool) :
    Store × Option String :=
  match GetGroupDetailUsingID s model.GroupID with
  | none => (s, some "Unable to fetch the group details at the moment")
  | some groupModel =>
    match selectUserGroupMap s model.UserID model.GroupID with
    | none =>
      (s, some ("The given user does not have access to group \x27" ++ groupModel.GroupName
        ++ "\x27"))
    | some existingMapping =>
      if approve then
        let updated := updateUserGroupMap s model.UserID model.GroupID (fun m =>
          { m with WorkflowStatus := WorkflowStatus.WorkflowStatusApproved.GetStatusID })
        if updated.2 < 1 then (updated.1, some unableToPerform)
        else (updated.1, none)
      else if groupModel.CreatedBy = model.UserID then
        (s, some ("This request is associated with new group. " ++
          "Please check the \x27Create Group\x27 requests"))
      else if existingMapping.IsLeader then
        let updated := updateUserGroupMap s model.UserID model.GroupID (fun m =>
          { m with WorkflowStatus := WorkflowStatus.WorkflowStatusApproved.GetStatusID
                   IsLeader := false })
        if updated.2 < 1 then (updated.1, some unableToPerform)
        else (updated.1, none)
      else (s, none)

/-! ## Controller actions of `app/controllers/requests.go` and `group.go` -/

/-- Value of a decimal digit. -/
def digitValue (c : Char) : Option Nat :=
  if '0' ≤ c ∧ c ≤ '9' then some (c.toNat - 48) else none

/-- Digit loop of `strconv.ParseUint(s, 10, 64)`: `none` is a syntax error.  As
soon as the value leaves the 64-bit range the loop stops with the range error and
the largest value `2^64 - 1`; the characters after that point are not looked at. -/
def parseDigits : List Char → Nat → Option Nat
  | [], acc => some acc
  | c :: cs, acc =>
    match digitValue c with
    | none => none
    | some d =>
      if 2 ^ 64 ≤ acc * 10 + d then some (2 ^ 64 - 1)
      else parseDigits cs (acc * 10 + d)

/-- Magnitude part of `strconv.ParseInt(s, 10, 64)` after the sign was taken off:
the value and whether an error is returned.  A syntax error yields 0, a magnitude
out of range yields the nearest 64-bit value. -/
def parseMagnitude (negative : Bool) (digits : List Char) : Int × Bool :=
  match digits with
  | [] => (0, true)
  | _ :: _ =>
    match parseDigits digits 0 with
    | none => (0, true)
    | some un =>
      if !negative && decide (2 ^ 63 ≤ un) then (2 ^ 63 - 1, true)
      else if negative && decide (2 ^ 63 < un) then (-(2 ^ 63), true)
      else (if negative then -(un : Int) else (un : Int), false)

/-- `strconv.ParseInt(s, 10, 64)`: the value and whether an error is returned. -/
def ParseInt (s : String) : Int × Bool :=
  match s.data with
  | [] => (0, true)
  | c :: cs =>
    if c = '+' then parseMagnitude false cs
    else if c = '-' then parseMagnitude true cs
    else parseMagnitude false (c :: cs)

/-- `strconv.ParseBool`; `none` is the error. -/
def ParseBool (str : String) : Option Bool :=
  if str = "1" ∨ str = "t" ∨ str = "T" ∨ str = "TRUE" ∨ str = "true" ∨ str = "True" then
    some true
  else if str = "0" ∨ str = "f" ∨ str = "F" ∨ str = "FALSE" ∨ str = "false" ∨ str = "False" then
    some false
  else none

/-- Read `m[key]` of a map kept as an association list; a missing key gives "". -/
def getKey (m : List (String × String)) (key : String) : String :=
  match m.find? (fun p => p.1 == key) with
  | some p => p.2
  | none => ""

/-- `c.Flash.Error(msg)`. -/
def Controller.flashError (c : Controller) (msg : String) : Controller :=
  { c with flashOut := setKey c.flashOut "error" msg }

/-- `c.Flash.Success(msg)`. -/
def Controller.flashSuccess (c : Controller) (msg : String) : Controller :=
  { c with flashOut := setKey c.flashOut "success" msg }

/-- Common opening of the actions: `c.Flash.Out["loggedInUser"]` is written back. -/
def Controller.keepLoggedInUser (c : Controller) : Controller :=
  { c with flashOut := setKey c.flashOut "loggedInUser" (getKey c.flashOut "loggedInUser") }

/-- `Requests.HandleGroup`: store and controller afterwards and the result. -/
def Requests.HandleGroup (s : Store) (c0 : Controller) (groupID approve : String) :
    Store × Controller × Result :=
  let userID := getKey c0.flashOut "userID"
  let c := c0.keepLoggedInUser
  let intUserID := (ParseInt userID).1
  match GetUserByUserID s intUserID with
  | none => (s, c.flashError "Unable to access user details", Result.Redirect Action.AccountIndex)
  | some userModel =>
    if !userModel.IsAdmin then (s, c, Result.Redirect Action.AccountUnauthorized)
    else if (ParseInt groupID).2 then
      (s, c.flashError "Internal error. Please try after sometime.",
        Result.Redirect Action.RequestsGroups)
    else
      match ParseBool approve with
      | none =>
        (s, c.flashError "Internal error. Please try after sometime.",
          Result.Redirect Action.RequestsGroups)
      | some approveFlag =>
        let done := Group.ApproveOrReject s { GroupID := (ParseInt groupID).1 } approveFlag
        let c1 :=
          if done.2.isSome then
            c.flashError "Unable to add group at the moment. Please try after sometime."
          else c
        let c2 :=
          if approveFlag then c1.flashSuccess "Group approved"
          else c1.flashSuccess "Group rejected"
        (done.1, c2, Result.Redirect Action.RequestsGroups)

/-- `Requests.HandleUser`: store and controller afterwards and the result. -/
def Requests.HandleUser (s : Store) (c0 : Controller) (memberID approve : String) :
    Store × Controller × Result :=
  let userID := getKey c0.flashOut "userID"
  let c := c0.keepLoggedInUser
  let intUserID := (ParseInt userID).1
  match GetUserByUserID s intUserID with
  | none => (s, c.flashError "Unable to access user details", Result.Redirect Action.AccountIndex)
  | some userModel =>
    if !userModel.IsAdmin then (s, c, Result.Redirect Action.AccountUnauthorized)
    else if (ParseInt memberID).2 then
      (s, c.flashError "Internal error. Please try after sometime.",
        Result.Redirect Action.RequestsUsers)
    else
      match ParseBool approve with
      | none =>
        (s, c.flashError "Internal error. Please try after sometime.",
          Result.Redirect Action.RequestsUsers)
      | some approveFlag =>
        let done := User.ApproveOrReject s { UserID := (ParseInt memberID).1 } approveFlag
        let c1 :=
          if done.2.isSome then
            c.flashError "Unable to process the request at the moment. Please try after sometime."
          else c
        let c2 :=
          if approveFlag then c1.flashSuccess "User request approved"
          else c1.flashSuccess "User request rejected"
        (done.1, c2, Result.Redirect Action.RequestsUsers)

/-- `Requests.HandleGroupAccess`: store and controller afterwards and the result. -/
def Requests.HandleGroupAccess (s : Store) (c0 : Controller) (groupID memberID approve : String) :
    Store × Controller × Result :=
  let userID := getKey c0.flashOut "userID"
  let c := c0.keepLoggedInUser
  let intUserID := (ParseInt userID).1
  match GetUserByUserID s intUserID with
  | none => (s, c.flashError "Unable to access user details", Result.Redirect Action.AccountIndex)
  | some userModel =>
    if !userModel.IsAdmin then (s, c, Result.Redirect Action.AccountUnauthorized)
    else if (ParseInt memberID).2 then
      (s, c.flashError "Internal error. Please try after sometime.",
        Result.Redirect Action.RequestsGroupAccess)
    else if (ParseInt groupID).2 then
      (s, c.flashError "Internal error. Please try after sometime.",
        Result.Redirect Action.RequestsGroupAccess)
    else
      match ParseBool approve with
      | none =>
        (s, c.flashError "Internal error. Please try after sometime.",
          Result.Redirect Action.RequestsUsers)
      | some approveFlag =>
        let done := UserGroupMap.ApproveOrReject s
          { UserID := (ParseInt memberID).1, GroupID := (ParseInt groupID).1 } approveFlag
        let c1 :=
          if done.2.isSome then
            c.flashError "Unable to process the request at the moment. Please try after sometime."
          else c
        let c2 :=
          if approveFlag then c1.flashSuccess "Group access request approved"
          else c1.flashSuccess "Group access request rejected"
        (done.1, c2, Result.Redirect Action.RequestsGroupAccess)

/-- Letters `a-z` and `A-Z`. -/
def isLetter (c : Char) : Bool :=
  decide ('a' ≤ c ∧ c ≤ 'z') || decide ('A' ≤ c ∧ c ≤ 'Z')

/-- Character class of the group-name pattern: letters, digits, underscore, dot,
apostrophe and blank. -/
def isGroupNameChar (c : Char) : Bool :=
  isLetter c || decide ('0' ≤ c ∧ c ≤ '9') || c == '_' || c == '.' || c == Char.ofNat 39
    || c == ' '

/-- The three validations of `Group.Create` taken together: the name is required,
has at most 60 characters and matches the pattern of a letter followed by one or
more characters of the class (the pattern implies the first). -/
def validGroupName (group : String) : Bool :=
  match group.data with
  | c :: d :: rest =>
    isLetter c && (d :: rest).all isGroupNameChar && decide (group.length ≤ 60)
  | _ => false

/-- `GroupMaxAllowedItems`. -/
def GroupMaxAllowedItems : Int := 100

/-- `GroupMaxAllowedSpace`, the constant `500.0` at type `float32`. -/
def GroupMaxAllowedSpace : F32 := F32.ofInt 500

/-- `Group.Create` of the controllers: store and controller afterwards and the
result.  `assigned` is the key the database draws for the new group row.  On a
validation error the parameters are kept in the flash map. -/
def Group.Create (s : Store) (c0 : Controller) (group : String) (assigned : Int) :
    Store × Controller × Result :=
  let userID := getKey c0.flashOut "userID"
  let c := c0.keepLoggedInUser
  if (ParseInt userID).2 then
    (s, c.flashError "Please login to continue", Result.Redirect Action.AccountIndex)
  else if !validGroupName group then
    (s, { c with flashOut := setKey c.flashOut "group" group }, Result.Redirect Action.GroupIndex)
  else
    let groupModel : Group :=
      { GroupName := group
        CreatedBy := (ParseInt userID).1
        MaxItemCount := GroupMaxAllowedItems
        MaxItemSpace := GroupMaxAllowedSpace }
    let added := Group.Add s groupModel assigned
    if added.2.2.isSome then
      (added.1, c.flashError "Unable to add group at the moment. Please try after sometime.",
        Result.Redirect Action.GroupIndex)
    else
      (added.1, c.flashSuccess "Group created successfully", Result.Redirect Action.GroupIndex)

/-! ## Files under `./uploads`, item writes of `app/models/item.go` and the item
actions of `app/controllers/item.go` -/

/-- Components of a path as the file system resolves it: empty components and `.`
are skipped, so `./a/b` and `.//a/b` name the same file.  The paths built by the
controllers hold no `..` and no symbolic link. -/
def resolve (path : String) : List String :=
  ((splitChars '/' path.data).map String.mk).filter (fun p => p != "" && p != ".")

/-- The files the process can reach, keyed by resolved path, with their bytes.
`readOnly` stands for every reason a write or a removal is refused (permissions,
missing directory). -/
structure FileSystem where
  files : List (List String × List Nat) := []
  readOnly : Bool := false
  deriving DecidableEq, Repr

/-- `ioutil.WriteFile(path, data, 0644)`; `none` is the error. -/
def FileSystem.WriteFile (fs : FileSystem) (path : String) (data : List Nat) :
    Option FileSystem :=
  if fs.readOnly then none
  else some { fs with files := (resolve path, data) :: fs.files.filter (fun f => f.1 != resolve path) }

/-- `os.Remove(path)`; `none` is the error (also when there is no such file). -/
def FileSystem.Remove (fs : FileSystem) (path : String) : Option FileSystem :=
  if fs.readOnly then none
  else if fs.files.any (fun f => f.1 == resolve path) then
    some { fs with files := fs.files.filter (fun f => f.1 != resolve path) }
  else none

/-- `MarkItemAsUploaded`: sets `uploaded = true` on the rows with the key; no
affected row is an error. -/
def MarkItemAsUploaded (s : Store) (itemID : Int) : Store × Option String :=
  let rows := s.items.map (fun i =>
    if i.ItemID == itemID then { i with Uploaded := true } else i)
  if (s.items.filter (fun i => i.ItemID == itemID)).length < 1 then
    (s, some unableToProcess)
  else
    ({ s with items := rows }, none)

/-- `MarkItemAsDeleting`: sets `uploaded = false` on the rows with the key; no
affected row is an error. -/
def MarkItemAsDeleting (s : Store) (itemID : Int) : Store × Option String :=
  let rows := s.items.map (fun i =>
    if i.ItemID == itemID then { i with Uploaded := false } else i)
  if (s.items.filter (fun i => i.ItemID == itemID)).length < 1 then
    (s, some unableToProcess)
  else
    ({ s with items := rows }, none)

/-- `GetItemDetailsByID`: primary-key select on `Items`; `none` is the error
"Unable to process the request". -/
def GetItemDetailsByID (s : Store) (itemID : Int) : Option Item :=
  s.items.find? (fun i => i.ItemID == itemID)

/-- `Item.Delete` of the models: deletes the rows with the key of the model; no
affected row is an error. -/
def Item.Delete (s : Store) (model : Item) : Store × Option String :=
  if (s.items.filter (fun i => i.ItemID == model.ItemID)).length < 1 then
    (s, some "Unable to delete the item at the moment")
  else
    ({ s with items := s.items.filter (fun i => !(i.ItemID == model.ItemID)) }, none)

/-- `Item.Delete` of the controllers: store, files and controller afterwards and the
result. -/
def Controllers.Item.Delete (s : Store) (fs : FileSystem) (c0 : Controller) (itemID : String) :
    Store × FileSystem × Controller × Result :=
  let userID := getKey c0.flashOut "userID"
  let c := c0.keepLoggedInUser
  if (ParseInt userID).2 then
    (s, fs, c.flashError "Please login to continue", Result.Redirect Action.AccountIndex)
  else if (ParseInt itemID).2 then
    (s, fs, c.flashError "Unable to add the comment", Result.Redirect Action.HomeIndex)
  else
    match GetUserByUserID s (ParseInt userID).1 with
    | none =>
      (s, fs, c.flashError "Please login to continue", Result.Redirect Action.AccountIndex)
    | some user =>
      match GetItemDetailsByID s (ParseInt itemID).1 with
      | none => (s, fs, c.flashError unableToProcess, Result.Redirect Action.HomeIndex)
      | some itemMeta =>
        if itemMeta.CreatedBy != (ParseInt userID).1 && !user.IsAdmin then
          (s, fs,
            c.flashError "Unauthorized. You do not have enough permissions to delete the item.",
            Result.Redirect Action.HomeIndex)
        else
          match (MarkItemAsDeleting s itemMeta.ItemID).2 with
          | some _ =>
            ((MarkItemAsDeleting s itemMeta.ItemID).1, fs,
              c.flashError "Unable to delete the item at the moment",
              Result.Redirect Action.HomeIndex)
          | none =>
            match fs.Remove ("./" ++ itemMeta.ItemPath) with
            | none =>
              ((MarkItemAsDeleting s itemMeta.ItemID).1, fs,
                c.flashError "Unable to delete the item at the moment",
                Result.Redirect Action.HomeIndex)
            | some fs1 =>
              match (SPShare.Item.Delete (MarkItemAsDeleting s itemMeta.ItemID).1 itemMeta).2 with
              | some e =>
                ((SPShare.Item.Delete (MarkItemAsDeleting s itemMeta.ItemID).1 itemMeta).1, fs1,
                  c.flashError e, Result.Redirect Action.HomeIndex)
              | none =>
                ((SPShare.Item.Delete (MarkItemAsDeleting s itemMeta.ItemID).1 itemMeta).1, fs1,
                  c.flashSuccess "Successfully deleted the item",
                  Result.Redirect Action.HomeIndex)

/-- The uploaded part `c.Params.Files["uploadedFile"][0]` (a `multipart.FileHeader`)
with its bytes; `opens` and `reads` say whether `file.Open()` and `ioutil.ReadAll`
return without error. -/
structure UploadedFile where
  Filename : String := ""
  Size : Int := 0
  content : List Nat := []
  opens : Bool := true
  reads : Bool := true
  deriving DecidableEq, Repr

/-- The pattern `^[a-zA-Z][a-zA-Z0-9_]+$` of the item name. -/
def validItemName (name : String) : Bool :=
  match name.data with
  | [] => false
  | c :: cs =>
    isLetter c && !cs.isEmpty
      && cs.all (fun d => isLetter d || decide ('0' ≤ d ∧ d ≤ '9') || d == '_')

/-- The checks `c.Validation.Required`, `MaxSize` and `Match` of `UploadHandler`:
`true` when `c.Validation.HasErrors()` is false.  The messages are not tracked. -/
def uploadValid (uploadedFile : List Nat) (group description name : String) : Bool :=
  !uploadedFile.isEmpty && group != "" && name != "" && description != ""
    && decide (name.length ≤ 30) && decide (description.length ≤ 400) && validItemName name

/-- The path `filePath := fmt.Sprintf("./uploads/%s", fileNameHashed)` the bytes are
written to. -/
def uploadFilePath (fileNameHashed : String) : String :=
  "./uploads/" ++ fileNameHashed

/-- The value `filePath[1:]` stored as `ItemPath`: the path without its first byte
(the first character of `filePath` is the one-byte `.`). -/
def uploadItemPath (filePath : String) : String :=
  String.mk (filePath.data.drop 1)

/-- The name `fileNameHashed := common.SHA256(fmt.Sprintf("%s%d", file.Filename,
time.Now().Unix()))`.  The hex digest of `crypto/sha256` is the parameter `digest`
and the clock reading is `now`. -/
def hashedName (digest : String → String) (filename : String) (now : Int) : String :=
  digest (filename ++ toString now)

/-- The model `itemModel` built by `UploadHandler`. -/
def uploadModel (digest : String → String) (now : Int) (c0 : Controller)
    (group description name : String) (file : UploadedFile) : Item :=
  { ItemName := name
    Description := description
    ItemPath := uploadItemPath (uploadFilePath (hashedName digest file.Filename now))
    ItemSize := file.Size
    ItemTypeID := (GetItemType file.Filename).1.GetItemID
    GroupID := (ParseInt group).1
    CreatedBy := (ParseInt (getKey c0.flashOut "userID")).1 }

/-- `Item.UploadHandler` of the controllers: store, files and controller afterwards
and the result.  `assigned` is the key the database draws for the new row; the text
of the write error appended to "Unable to write to temp file. Error: " is left out,
and so are the kept validation errors and request parameters. -/
def Controllers.Item.UploadHandler (s : Store) (fs : FileSystem) (c0 : Controller)
    (digest : String → String) (now : Int) (assigned : Int)
    (uploadedFile : List Nat) (group description name : String) (file : UploadedFile) :
    Store × FileSystem × Controller × Result :=
  let c := c0.keepLoggedInUser
  if !uploadValid uploadedFile group description name then
    (s, fs, c, Result.Redirect Action.ItemUpload)
  else if (ParseInt group).2 then
    (s, fs, c.flashError unableToProcess, Result.Redirect Action.GroupDetails)
  else
    match (GetItemType file.Filename).2.2 with
    | some e => (s, fs, c.flashError e, Result.Redirect Action.ItemUpload)
    | none =>
      let filePath := uploadFilePath (hashedName digest file.Filename now)
      if !file.opens then
        (s, fs, c.flashError "Invalid file", Result.Redirect Action.ItemUpload)
      else
        let itemModel := uploadModel digest now c0 group description name file
        match (CheckLimits s (some itemModel)).err with
        | some e => (s, fs, c.flashError e.Error, Result.Redirect Action.ItemUpload)
        | none =>
          match (SPShare.Item.Add s itemModel assigned).2 with
          | some e =>
            ((SPShare.Item.Add s itemModel assigned).1, fs, c.flashError e,
              Result.Redirect Action.ItemUpload)
          | none =>
            if !file.reads then
              ((SPShare.Item.Add s itemModel assigned).1, fs, c.flashError "Cannot read file",
                Result.Redirect Action.ItemUpload)
            else
              match fs.WriteFile filePath file.content with
              | none =>
                ((SPShare.Item.Add s itemModel assigned).1, fs,
                  c.flashError "Unable to write to temp file. Error: ",
                  Result.Redirect Action.ItemUpload)
              | some fs1 =>
                match (MarkItemAsUploaded (SPShare.Item.Add s itemModel assigned).1
                    (Item.insertedRow itemModel assigned).ItemID).2 with
                | some e =>
                  ((MarkItemAsUploaded (SPShare.Item.Add s itemModel assigned).1
                      (Item.insertedRow itemModel assigned).ItemID).1, fs1, c.flashError e,
                    Result.Redirect Action.ItemUpload)
                | none =>
                  ((MarkItemAsUploaded (SPShare.Item.Add s itemModel assigned).1
                      (Item.insertedRow itemModel assigned).ItemID).1, fs1,
                    c.flashSuccess "Successfully uploaded the file",
                    Result.Redirect Action.ItemUpload)

/-! ## Concrete stores used to exercise the theorems -/

/-- User 1, approved, limited to 1 item and 100 MB. -/
def oneItemUser : User :=
  { UserID := 1, FirstName := "Ada", LastName := "A", WorkflowStatus := 1,
    MaxItemCount := 1, MaxItemSpace := F32.ofInt 100 }

/-- One user (cap 1 item, 100 MB), one group (cap 1 item, 500 MB), the picture
type (cap 100 MB) and one stored item of that user in that group. -/
def fullStore : Store :=
  { users := [oneItemUser]
    groups := [{ GroupID := 1, GroupName := "G", CreatedBy := 1, WorkflowStatus := 1,
                 MaxItemCount := 1, MaxItemSpace := F32.ofInt 500 }]
    items := [{ ItemID := 1, ItemName := "first", ItemTypeID := 1, ItemSize := 50000000,
                GroupID := 1, Uploaded := true, ItemPath := "/uploads/a", CreatedBy := 1 }]
    itemTypes := [{ ItemTypeID := 1, ItemTypeName := "Picture", MaxItemSpace := F32.ofInt 100 }] }

/-- A second upload of user 1 into group 1. -/
def secondItem : Item :=
  { ItemName := "second", ItemTypeID := 1, ItemSize := 1000, GroupID := 1, CreatedBy := 1 }

/-- The store `fullStore` before anything was uploaded. -/
def freshStore : Store :=
  { fullStore with items := [] }

/-- An item row of user 1 in group 1 whose bytes were never written. -/
def unwrittenRow : Item :=
  { ItemID := 9, ItemName := "lost", ItemTypeID := 1, ItemSize := 1000, GroupID := 1,
    Uploaded := false, ItemPath := "/uploads/b", CreatedBy := 1 }

/-- User 1, approved, with the default limits of 20 items and 100 MB. -/
def roomyUser : User :=
  { UserID := 1, FirstName := "Ada", LastName := "A", WorkflowStatus := 1,
    MaxItemCount := 20, MaxItemSpace := F32.ofInt 100 }

/-- One user (cap 20 items, 100 MB), one group (cap 100 items, 500 MB), the picture
type (cap 100 MB) and one stored item of 50,000,000 bytes. -/
def roomyStore : Store :=
  { users := [roomyUser]
    groups := [{ GroupID := 1, GroupName := "G", CreatedBy := 1, WorkflowStatus := 1,
                 MaxItemCount := 100, MaxItemSpace := F32.ofInt 500 }]
    items := [{ ItemID := 1, ItemName := "first", ItemTypeID := 1, ItemSize := 50000000,
                GroupID := 1, Uploaded := true, ItemPath := "/uploads/a", CreatedBy := 1 }]
    itemTypes := [{ ItemTypeID := 1, ItemTypeName := "Picture", MaxItemSpace := F32.ofInt 100 }] }

/-- The store `roomyStore` with the picture cap set to 16.796875 MB, the `float32`
value `1075 / 64`. -/
def oddCapStore : Store :=
  { roomyStore with
    itemTypes := [{ ItemTypeID := 1, ItemTypeName := "Picture",
                    MaxItemSpace := F32.fin (1075 * 2 ^ 143) }] }

/-- A candidate of the given size by user 1 for group 1, of the picture type. -/
def candidate (sizeBytes : Int) : Item :=
  { ItemName := "next", ItemTypeID := 1, ItemSize := sizeBytes, GroupID := 1, CreatedBy := 1 }

/-- A session whose user is still pending approval. -/
def pendingSession : Controller :=
  { sessionUser := some { UserID := 7, FirstName := "Bea", LastName := "B", WorkflowStatus := 0 } }

/-- A session whose user was rejected by an administrator. -/
def rejectedSession : Controller :=
  { sessionUser := some { UserID := 8, FirstName := "Cy", LastName := "C", WorkflowStatus := 2 } }

/-- An administrator (user 1), a plain user (user 2) and a pending user (user 3);
group 3 "Old", created and led by user 2 and approved; user 3 is a plain member. -/
def workflowStore : Store :=
  { users := [{ UserID := 1, FirstName := "Root", IsAdmin := true, WorkflowStatus := 1 },
              { UserID := 2, FirstName := "Bea", WorkflowStatus := 1 },
              { UserID := 3, FirstName := "Cy", WorkflowStatus := 2 }]
    groups := [{ GroupID := 3, GroupName := "Old", CreatedBy := 2, WorkflowStatus := 1,
                 MaxItemCount := 100, MaxItemSpace := F32.ofInt 500 }]
    userGroupMaps := [{ UserID := 2, GroupID := 3, IsLeader := true, CreatedBy := 2,
                        WorkflowStatus := 1 },
                      { UserID := 3, GroupID := 3, IsLeader := false, CreatedBy := 2,
                        WorkflowStatus := 1 }] }

/-- A request whose flash map carries the id of user 2. -/
def plainUserRequest : Controller :=
  { flashOut := [("userID", "2"), ("loggedInUser", "Bea ")] }

/-- The store `workflowStore` after user 3 asked for group-lead access to group 3:
the membership row of user 3 now has `IsLeader = true` and is Pending. -/
def pendingLeaderStore : Store :=
  (UserGroupMap.UpgradeToGroupLead workflowStore (some { UserID := 3, GroupID := 3 })).1

/-- Invariant of table `UserGroupMap`: no two rows carry the same pair
`(UserID, GroupID)`. -/
def pairsUnique (s : Store) : Prop :=
  (s.userGroupMaps.map (fun m => (m.UserID, m.GroupID))).Nodup

/-- A request whose flash map carries the id of the administrator, user 1. -/
def adminRequest : Controller :=
  { flashOut := [("userID", "1"), ("loggedInUser", "Root ")] }

/-- An administrator (user 1) and two plain users (2 and 3); item 5 of user 2 in
group 3, uploaded, stored under `/uploads/ab12`. -/
def uploadsStore : Store :=
  { users := [{ UserID := 1, FirstName := "Root", IsAdmin := true, WorkflowStatus := 1 },
              { UserID := 2, FirstName := "Bea", WorkflowStatus := 1 },
              { UserID := 3, FirstName := "Cy", WorkflowStatus := 1 }]
    items := [{ ItemID := 5, ItemName := "pic", ItemTypeID := 1, ItemSize := 3, GroupID := 3,
                Uploaded := true, ItemPath := "/uploads/ab12", CreatedBy := 2 }] }

/-- The file of item 5 of `uploadsStore`. -/
def uploadsFiles : FileSystem :=
  { files := [(["uploads", "ab12"], [1, 2, 3])] }

/-- A request whose flash map carries the id of user 3. -/
def otherUserRequest : Controller :=
  { flashOut := [("userID", "3"), ("loggedInUser", "Cy ")] }

/-- A request whose flash map carries the id of user 1 of `roomyStore`. -/
def uploaderRequest : Controller :=
  { flashOut := [("userID", "1"), ("loggedInUser", "Ada A")] }

/-- The value of `common.SHA256` at "a.jpg1700000000", the only string the examples
hash: the hex digest `sha256("a.jpg1700000000")`. -/
def sampleDigest (_ : String) : String :=
  "627dbd50a3fdcfc60fcbbefece31230f7a511e6a49055e875ea78dcd1715e954"

/-- A part named `a.jpg` of three bytes. -/
def sampleFile : UploadedFile :=
  { Filename := "a.jpg", Size := 3, content := [1, 2, 3] }

/-- The store `roomyStore` with a single stored item of 80 bytes: user cap 100 MB,
group cap 500 MB, picture cap 100 MB. -/
def smallItemStore : Store :=
  { roomyStore with
    items := [{ ItemID := 1, ItemName := "first", ItemTypeID := 1, ItemSize := 80,
                GroupID := 1, Uploaded := true, ItemPath := "/uploads/a", CreatedBy := 1 }] }

/-- The store `freshStore` (user 1 capped at one item, nothing stored) after an
upload of `a.jpg` by user 1 whose bytes could not be read. -/
def afterFailedUpload : Store :=
  (Controllers.Item.UploadHandler freshStore {} uploaderRequest sampleDigest 1700000000 2
    [1, 2, 3] "1" "d" "pic1" { sampleFile with reads := false }).1

/-! ## Theorems -/

/-- The queries of the per-user check touch only the user row and the user's items. -/
theorem checkPerUserLimits_queries (s : Store) (model : Item) (f : F32) :
    ∀ q ∈ (checkPerUserLimits s model f).queries,
      q = Query.selectUser model.CreatedBy ∨ q = Query.aggregateItemsOfUser model.CreatedBy := by
  intro q hq
  unfold checkPerUserLimits at hq
  repeat' split at hq
  all_goals simp at hq
  all_goals first
    | exact Or.inl hq
    | exact hq

/-- The queries of the per-group check touch only the group row and the group's items. -/
theorem checkPerGroupLimit_queries (s : Store) (model : Item) (f : F32) :
    ∀ q ∈ (checkPerGroupLimit s model f).queries,
      q = Query.selectGroup model.GroupID ∨ q = Query.aggregateItemsOfGroup model.GroupID := by
  intro q hq
  unfold checkPerGroupLimit at hq
  repeat' split at hq
  all_goals simp at hq
  all_goals first
    | exact Or.inl hq
    | exact hq

/-- C1. `CheckLimits` runs the per-user, the per-group and the per-item-type check
in this order and returns the error of the first one that fails, having issued
only the queries of the checks run so far; it returns nil exactly when all three
pass.  When the per-user and the per-group check both fail, the error is the
per-user one. -/
theorem CheckLimits_first_failure (s : Store) (model : Item) :
    (∀ e, (checkPerUserLimits s model (fileSizeMB model)).err = some e →
      CheckLimits s (some model)
        = ⟨some e, (checkPerUserLimits s model (fileSizeMB model)).queries⟩) ∧
    ((checkPerUserLimits s model (fileSizeMB model)).err = none →
      ∀ e, (checkPerGroupLimit s model (fileSizeMB model)).err = some e →
        CheckLimits s (some model)
          = ⟨some e, (checkPerUserLimits s model (fileSizeMB model)).queries
              ++ (checkPerGroupLimit s model (fileSizeMB model)).queries⟩) ∧
    ((checkPerUserLimits s model (fileSizeMB model)).err = none →
      (checkPerGroupLimit s model (fileSizeMB model)).err = none →
        CheckLimits s (some model)
          = ⟨(checkPerItemTypeLimit s model (fileSizeMB model)).err,
              (checkPerUserLimits s model (fileSizeMB model)).queries
              ++ (checkPerGroupLimit s model (fileSizeMB model)).queries
              ++ (checkPerItemTypeLimit s model (fileSizeMB model)).queries⟩) ∧
    ((CheckLimits s (some model)).err = none ↔
      (checkPerUserLimits s model (fileSizeMB model)).err = none ∧
      (checkPerGroupLimit s model (fileSizeMB model)).err = none ∧
      (checkPerItemTypeLimit s model (fileSizeMB model)).err = none) ∧
    ((checkPerUserLimits s model (fileSizeMB model)).err ≠ none →
      (checkPerGroupLimit s model (fileSizeMB model)).err ≠ none →
        (CheckLimits s (some model)).err
            = (checkPerUserLimits s model (fileSizeMB model)).err ∧
        ∀ q ∈ (CheckLimits s (some model)).queries,
          q = Query.selectUser model.CreatedBy ∨
          q = Query.aggregateItemsOfUser model.CreatedBy) := by
  refine ⟨?_, ?_, ?_, ?_, ?_⟩
  · intro e h
    simp [CheckLimits, h]
  · intro h1 e h2
    simp [CheckLimits, h1, h2]
  · intro h1 h2
    cases h3 : (checkPerItemTypeLimit s model (fileSizeMB model)).err <;>
      simp [CheckLimits, h1, h2, h3]
  · cases h1 : (checkPerUserLimits s model (fileSizeMB model)).err <;>
      cases h2 : (checkPerGroupLimit s model (fileSizeMB model)).err <;>
      cases h3 : (checkPerItemTypeLimit s model (fileSizeMB model)).err <;>
      simp [CheckLimits, h1, h2, h3]
  · intro h1 _
    cases h : (checkPerUserLimits s model (fileSizeMB model)).err with
    | none => exact absurd h h1
    | some e =>
      have hc : CheckLimits s (some model)
          = ⟨some e, (checkPerUserLimits s model (fileSizeMB model)).queries⟩ := by
        simp [CheckLimits, h]
      rw [hc]
      exact ⟨rfl, checkPerUserLimits_queries s model (fileSizeMB model)⟩

set_option exponentiation.threshold 2000 in
set_option maxRecDepth 4000 in
/-- C1 at `fullStore`: the user and the group are both at their item cap and the
error reported is the user's. -/
theorem CheckLimits_first_failure_witness :
    (checkPerUserLimits fullStore secondItem (fileSizeMB secondItem)).err ≠ none ∧
    (checkPerGroupLimit fullStore secondItem (fileSizeMB secondItem)).err ≠ none ∧
    (CheckLimits fullStore (some secondItem)).err = some (Err.userItemCount 1) :=
  ⟨by decide, by decide,
    ((CheckLimits_first_failure fullStore secondItem).2.2.2.2
      (by decide) (by decide)).1.trans (by decide)⟩

/-- The aggregate reports the number of selected rows. -/
theorem aggregate_count (rows : List Item) (count : Int) (size : F32)
    (h : aggregate rows = some (count, size)) : count = (rows.length : Int) := by
  unfold aggregate at h
  split at h
  · exact absurd h (by simp)
  · simp only [Option.some.injEq, Prod.mk.injEq] at h
    exact h.1.symm

/-- With the user row present and the aggregate returned, the per-user check
reports the item-count error exactly when the count is not below the cap. -/
theorem checkPerUserLimits_count_iff (s : Store) (model : Item) (f : F32) (user : User)
    (count : Int) (size : F32)
    (hu : GetUserByUserID s model.CreatedBy = some user)
    (hq : getLimitUtilizationForUser s model.CreatedBy = some (count, size)) :
    (checkPerUserLimits s model f).err = some (Err.userItemCount user.MaxItemCount)
      ↔ ¬ count < user.MaxItemCount := by
  unfold checkPerUserLimits
  simp only [hu, hq]
  by_cases hc : count < user.MaxItemCount
  · by_cases hl : F32.lt (F32.add size f) user.MaxItemSpace = true <;> simp [hc, hl]
  · simp [hc]

/-- `Item.Add` leaves the user table alone. -/
theorem Item.Add_users (s : Store) (model : Item) (assigned : Int) :
    (Item.Add s model assigned).1.users = s.users := by
  unfold Item.Add
  split <;> rfl

/-- A run of `Item.Add` calls leaves the user table alone. -/
theorem addAll_users (s : Store) (uploads : List (Item × Int)) :
    (addAll s uploads).users = s.users := by
  induction uploads generalizing s with
  | nil => rfl
  | cons p rest ih =>
    obtain ⟨model, assigned⟩ := p
    simp only [addAll]
    rw [ih, Item.Add_users]

/-- The inserted row keeps the creator of the model. -/
theorem Item.insertedRow_CreatedBy (model : Item) (assigned : Int) :
    (Item.insertedRow model assigned).CreatedBy = model.CreatedBy := by
  unfold Item.insertedRow
  split <;> rfl

/-- A successful `Item.Add` of an item created by `userID` adds one row of that user. -/
theorem Item.Add_rows_of_user (s : Store) (model : Item) (assigned : Int) (userID : Int)
    (hby : model.CreatedBy = userID) (hok : (Item.Add s model assigned).2.isNone = true) :
    ((Item.Add s model assigned).1.items.filter (fun i => i.CreatedBy == userID)).length
      = (s.items.filter (fun i => i.CreatedBy == userID)).length + 1 := by
  unfold Item.Add at hok ⊢
  split at hok
  · simp at hok
  · rename_i hfree
    rw [if_neg hfree]
    simp [List.filter_append, Item.insertedRow_CreatedBy, hby]

/-- After a run of successful `Item.Add` calls for items of `userID`, the user has
one more row per call. -/
theorem addAll_rows_of_user (s : Store) (uploads : List (Item × Int)) (userID : Int)
    (hby : ∀ p ∈ uploads, p.1.CreatedBy = userID) (hok : allAdded s uploads = true) :
    ((addAll s uploads).items.filter (fun i => i.CreatedBy == userID)).length
      = (s.items.filter (fun i => i.CreatedBy == userID)).length + uploads.length := by
  induction uploads generalizing s with
  | nil => simp [addAll]
  | cons p rest ih =>
    obtain ⟨model, assigned⟩ := p
    simp only [allAdded, Bool.and_eq_true] at hok
    simp only [addAll, List.length_cons]
    rw [ih (Item.Add s model assigned).1 (fun q hq => hby q (List.mem_cons_of_mem _ hq)) hok.2,
      Item.Add_rows_of_user s model assigned userID (hby _ (List.mem_cons_self _ _)) hok.1]
    omega

/-- C2. A user with item cap `N` starts with no items and then makes uploads that
are all admitted and inserted.  After `k` of them the aggregate counts `k` items,
and the next attempt fails the per-user item-count check exactly when `k` is not
below `N`: attempts 1 to `N` pass the count test and attempt `N + 1` fails it. -/
theorem checkPerUserLimits_count_sequence (s : Store) (uploads : List (Item × Int))
    (model : Item) (f : F32) (user : User) (count : Int) (size : F32)
    (hstart : ∀ i ∈ s.items, i.CreatedBy ≠ model.CreatedBy)
    (hby : ∀ p ∈ uploads, p.1.CreatedBy = model.CreatedBy)
    (hok : allAdded s uploads = true)
    (hu : GetUserByUserID s model.CreatedBy = some user)
    (hq : getLimitUtilizationForUser (addAll s uploads) model.CreatedBy = some (count, size)) :
    count = (uploads.length : Int) ∧
    ((checkPerUserLimits (addAll s uploads) model f).err
        = some (Err.userItemCount user.MaxItemCount)
      ↔ ¬ (uploads.length : Int) < user.MaxItemCount) := by
  have hzero : (s.items.filter (fun i => i.CreatedBy == model.CreatedBy)).length = 0 := by
    rw [List.length_eq_zero, List.filter_eq_nil_iff]
    intro i hi
    simpa using hstart i hi
  have hlen := addAll_rows_of_user s uploads model.CreatedBy hby hok
  rw [hzero, Nat.zero_add] at hlen
  have hcount : count = (uploads.length : Int) := by
    have := aggregate_count _ count size hq
    rw [this, hlen]
  have hu2 : GetUserByUserID (addAll s uploads) model.CreatedBy = some user := by
    unfold GetUserByUserID at hu ⊢
    rw [addAll_users]
    exact hu
  refine ⟨hcount, ?_⟩
  rw [← hcount]
  exact checkPerUserLimits_count_iff (addAll s uploads) model f user count size hu2 hq

set_option exponentiation.threshold 2000 in
set_option maxRecDepth 4000 in
/-- C2 at `freshStore` (cap 1): after one inserted upload the next attempt fails the
item-count check. -/
theorem checkPerUserLimits_count_sequence_witness :
    allAdded freshStore [(candidate 1000, 5)] = true ∧
    (checkPerUserLimits (addAll freshStore [(candidate 1000, 5)]) (candidate 2000)
        (fileSizeMB (candidate 2000))).err = some (Err.userItemCount 1) :=
  ⟨by decide,
    (checkPerUserLimits_count_sequence freshStore [(candidate 1000, 5)] (candidate 2000)
      (fileSizeMB (candidate 2000)) oneItemUser 1 (F32.mul (F32.ofInt 1000) MB)
      (by decide) (by decide) (by decide) (by decide) (by decide)).2.mpr (by decide)⟩

/-- Rewriting the `Uploaded` flags keeps the sizes of the rows. -/
theorem sizes_setUploaded (rows : List Item) (flag : Item → Bool) :
    (rows.map (fun i => { i with Uploaded := flag i })).map (fun i => i.ItemSize)
      = rows.map (fun i => i.ItemSize) := by
  induction rows with
  | nil => rfl
  | cons a l ih => simp only [List.map_cons, ih]

/-- The scanned sum does not depend on the `Uploaded` flags of the rows. -/
theorem scanTotalSize_setUploaded (rows : List Item) (flag : Item → Bool) :
    scanTotalSize (rows.map (fun i => { i with Uploaded := flag i })) = scanTotalSize rows := by
  cases rows with
  | nil => rfl
  | cons a l =>
    have h := sizes_setUploaded (a :: l) flag
    rw [List.map_cons] at h ⊢
    unfold scanTotalSize
    simp only [h]

/-- The aggregate does not depend on the `Uploaded` flags of the rows. -/
theorem aggregate_setUploaded (rows : List Item) (flag : Item → Bool) :
    aggregate (rows.map (fun i => { i with Uploaded := flag i })) = aggregate rows := by
  unfold aggregate
  rw [scanTotalSize_setUploaded, List.length_map]

/-- Filtering on a column other than `Uploaded` commutes with rewriting the flags. -/
theorem filter_setUploaded (rows : List Item) (flag : Item → Bool) (p : Item → Bool)
    (hp : ∀ i, p { i with Uploaded := flag i } = p i) :
    (rows.map (fun i => { i with Uploaded := flag i })).filter p
      = (rows.filter p).map (fun i => { i with Uploaded := flag i }) := by
  induction rows with
  | nil => rfl
  | cons a l ih =>
    simp only [List.map_cons, List.filter_cons, hp]
    split
    · rw [ih, List.map_cons]
    · exact ih

/-- Adding a row with `Uploaded = false` can change the outcome of `CheckLimits`: in
`freshStore` the candidate is admitted, and with one such row it is rejected. -/
theorem unuploaded_row_changes_CheckLimits :
    ¬ (∀ (s : Store) (row model : Item), row.Uploaded = false →
        CheckLimits { s with items := row :: s.items } (some model)
          = CheckLimits s (some model)) := by
  intro h
  have hrow := h freshStore unwrittenRow (candidate 2000) rfl
  have hfresh : (CheckLimits freshStore (some (candidate 2000))).err = none := by
    set_option exponentiation.threshold 2000 in
    set_option maxRecDepth 4000 in
    decide
  have hfull : (CheckLimits { freshStore with items := unwrittenRow :: freshStore.items }
      (some (candidate 2000))).err = some (Err.userItemCount 1) := by
    set_option exponentiation.threshold 2000 in
    set_option maxRecDepth 4000 in
    decide
  rw [hrow, hfresh] at hfull
  exact absurd hfull (by simp)

/-- The quota aggregates never read the `Uploaded` flag: rewriting the flags of the
item rows in any way never changes the outcome of `CheckLimits`. -/
theorem CheckLimits_ignores_uploaded (s : Store) (receiver : Option Item)
    (flag : Item → Bool) :
    CheckLimits { s with items := s.items.map (fun i => { i with Uploaded := flag i }) }
      receiver = CheckLimits s receiver := by
  have hU : ∀ userID, getLimitUtilizationForUser
      { s with items := s.items.map (fun i => { i with Uploaded := flag i }) } userID
        = getLimitUtilizationForUser s userID := by
    intro userID
    unfold getLimitUtilizationForUser
    simp only []
    rw [filter_setUploaded s.items flag (fun i => i.CreatedBy == userID) (fun _ => rfl),
      aggregate_setUploaded]
  have hG : ∀ groupID, getLimitUtilizationForGroup
      { s with items := s.items.map (fun i => { i with Uploaded := flag i }) } groupID
        = getLimitUtilizationForGroup s groupID := by
    intro groupID
    unfold getLimitUtilizationForGroup
    simp only []
    rw [filter_setUploaded s.items flag (fun i => i.GroupID == groupID) (fun _ => rfl),
      aggregate_setUploaded]
  cases receiver with
  | none => rfl
  | some model =>
    have h1 : ∀ f, checkPerUserLimits
        { s with items := s.items.map (fun i => { i with Uploaded := flag i }) } model f
          = checkPerUserLimits s model f := by
      intro f
      unfold checkPerUserLimits
      rw [hU]
      rfl
    have h2 : ∀ f, checkPerGroupLimit
        { s with items := s.items.map (fun i => { i with Uploaded := flag i }) } model f
          = checkPerGroupLimit s model f := by
      intro f
      unfold checkPerGroupLimit
      rw [hG]
      rfl
    have h3 : ∀ f, checkPerItemTypeLimit
        { s with items := s.items.map (fun i => { i with Uploaded := flag i }) } model f
          = checkPerItemTypeLimit s model f := by
      intro f
      unfold checkPerItemTypeLimit
      rw [hG]
      rfl
    unfold CheckLimits
    simp only [h1, h2, h3]

/-- Two equal `float32` values are not in the relation `<`. -/
theorem F32.lt_false_of_eq (a b : F32) (h : F32.eq a b = true) : F32.lt a b = false := by
  cases a <;> cases b <;> simp_all [F32.eq, F32.lt]

/-- With the user row present and the aggregate returned, the per-user check passes
exactly when the count is below the cap and the new total is strictly below the
space cap. -/
theorem checkPerUserLimits_pass_iff (s : Store) (model : Item) (f : F32) (user : User)
    (count : Int) (size : F32)
    (hu : GetUserByUserID s model.CreatedBy = some user)
    (hq : getLimitUtilizationForUser s model.CreatedBy = some (count, size)) :
    (checkPerUserLimits s model f).err = none
      ↔ count < user.MaxItemCount ∧ F32.lt (F32.add size f) user.MaxItemSpace = true := by
  unfold checkPerUserLimits
  simp only [hu, hq]
  by_cases hc : count < user.MaxItemCount
  · by_cases hl : F32.lt (F32.add size f) user.MaxItemSpace = true <;> simp [hc, hl]
  · simp [hc]

/-- With the group row present and the aggregate returned, the per-group check
passes exactly when the count is below the cap and the new total is strictly below
the space cap. -/
theorem checkPerGroupLimit_pass_iff (s : Store) (model : Item) (f : F32) (group : Group)
    (count : Int) (size : F32)
    (hg : GetGroupDetailUsingID s model.GroupID = some group)
    (hq : getLimitUtilizationForGroup s model.GroupID = some (count, size)) :
    (checkPerGroupLimit s model f).err = none
      ↔ count < group.MaxItemCount ∧ F32.lt (F32.add size f) group.MaxItemSpace = true := by
  unfold checkPerGroupLimit
  simp only [hg, hq]
  by_cases hc : count < group.MaxItemCount
  · by_cases hl : F32.lt (F32.add size f) group.MaxItemSpace = true <;> simp [hc, hl]
  · simp [hc]

/-- C4, amended. The cumulative space checks are strict on the `float32` values the
code compares.  Here `size` is the space in MB the aggregate reports for the user
(resp. the group), that is `float32(sum of the stored sizes) * MB`, `f` the
candidate's size in MB, and the total is the `float32` sum `size + f`.  If that
total equals `MaxItemSpace` the check fails, with the space-limit error whenever the
item-count test before it passed; and the check passes only when the total is
strictly below the cap. -/
theorem cumulative_space_checks_strict (s : Store) (model : Item) (f : F32) :
    (∀ (user : User) (count : Int) (size : F32),
      GetUserByUserID s model.CreatedBy = some user →
      getLimitUtilizationForUser s model.CreatedBy = some (count, size) →
        (F32.eq (F32.add size f) user.MaxItemSpace = true →
          (checkPerUserLimits s model f).err ≠ none ∧
          (count < user.MaxItemCount →
            (checkPerUserLimits s model f).err
              = some (Err.userItemSpace user.MaxItemSpace))) ∧
        ((checkPerUserLimits s model f).err = none →
          F32.lt (F32.add size f) user.MaxItemSpace = true)) ∧
    (∀ (group : Group) (count : Int) (size : F32),
      GetGroupDetailUsingID s model.GroupID = some group →
      getLimitUtilizationForGroup s model.GroupID = some (count, size) →
        (F32.eq (F32.add size f) group.MaxItemSpace = true →
          (checkPerGroupLimit s model f).err ≠ none ∧
          (count < group.MaxItemCount →
            (checkPerGroupLimit s model f).err
              = some (Err.groupItemSpace group.MaxItemSpace))) ∧
        ((checkPerGroupLimit s model f).err = none →
          F32.lt (F32.add size f) group.MaxItemSpace = true)) := by
  constructor
  · intro user count size hu hq
    have hpass := checkPerUserLimits_pass_iff s model f user count size hu hq
    refine ⟨fun heq => ⟨?_, ?_⟩, fun hnone => (hpass.mp hnone).2⟩
    · intro hnone
      have hlt := (hpass.mp hnone).2
      rw [F32.lt_false_of_eq _ _ heq] at hlt
      exact absurd hlt (by simp)
    · intro hc
      unfold checkPerUserLimits
      simp [hu, hq, hc, F32.lt_false_of_eq _ _ heq]
  · intro group count size hg hq
    have hpass := checkPerGroupLimit_pass_iff s model f group count size hg hq
    refine ⟨fun heq => ⟨?_, ?_⟩, fun hnone => (hpass.mp hnone).2⟩
    · intro hnone
      have hlt := (hpass.mp hnone).2
      rw [F32.lt_false_of_eq _ _ heq] at hlt
      exact absurd hlt (by simp)
    · intro hc
      unfold checkPerGroupLimit
      simp [hg, hq, hc, F32.lt_false_of_eq _ _ heq]

set_option exponentiation.threshold 2000 in
set_option maxRecDepth 4000 in
/-- C4, amended, at `roomyStore`: 50 MB are stored, the candidate has 50 MB and the user cap
is 100 MB, so the total lands exactly on the cap and the space-limit error is
returned. -/
theorem cumulative_space_checks_strict_witness :
    F32.eq (F32.add (F32.mul (F32.ofInt 50000000) MB) (fileSizeMB (candidate 50000000)))
      (F32.ofInt 100) = true ∧
    (checkPerUserLimits roomyStore (candidate 50000000)
        (fileSizeMB (candidate 50000000))).err
      = some (Err.userItemSpace (F32.ofInt 100)) ∧
    (Err.userItemSpace (F32.ofInt 100)).Error
      = "User is limited to 100.000 MB of space for uploads" :=
  ⟨by decide,
    (((cumulative_space_checks_strict roomyStore (candidate 50000000)
        (fileSizeMB (candidate 50000000))).1 roomyUser 1
        (F32.mul (F32.ofInt 50000000) MB) (by decide) (by decide)).1 (by decide)).2
      (by decide),
    by decide⟩

/-- The constant `MB` is the `float32` value nearest to `10^(-6)`: in units of
`2^(-149)` it is a 24-bit significand times `2^106`, and its distance to
`2^149 / 10^6` is below half a unit in the last place. -/
theorem MB_nearest :
    MB = F32.fin (8796093 * 2 ^ 106) ∧ (2 : Int) ^ 23 ≤ 8796093 ∧ (8796093 : Int) < 2 ^ 24 ∧
    2 * (8796093 * 2 ^ 106 * 10 ^ 6 - 2 ^ 149 : Int).natAbs < 2 ^ 106 * 10 ^ 6 := by
  refine ⟨rfl, by norm_num, by norm_num, ?_⟩
  set_option maxRecDepth 4000 in
  decide

set_option exponentiation.threshold 2000 in
set_option maxRecDepth 4000 in
/-- C5, refuted as stated: with the picture cap at 100 MB a file of
`100 * 10^6 + 1` bytes passes `checkPerItemTypeLimit`, and with the cap at
16.796875 MB a file of exactly `16.796875 * 10^6 = 16796875` bytes fails it. -/
theorem byte_exact_ceiling_fails :
    (checkPerItemTypeLimit roomyStore (candidate (100 * 10 ^ 6 + 1))
        (fileSizeMB (candidate (100 * 10 ^ 6 + 1)))).err = none ∧
    (16796875 : Int) * 64 = 1075 * 10 ^ 6 ∧
    (checkPerItemTypeLimit oddCapStore (candidate 16796875)
        (fileSizeMB (candidate 16796875))).err
      = some (Err.itemTypeSize "Picture" (F32.fin (1075 * 2 ^ 143))) := by
  refine ⟨?_, ?_, ?_⟩ <;> decide

/-- C5, amended: the size used in the checks is the `float32` product
`float32(ItemSize) * MB`, and the per-item-type ceiling is inclusive on that value:
with the item-type row present and the aggregate returned, the check fails exactly
when the size in MB is greater than the cap, so a file whose size in MB equals the
cap passes. -/
theorem checkPerItemTypeLimit_inclusive (s : Store) (model : Item) (f : F32)
    (itemType : ItemType) (usage : Int × F32)
    (ht : GetItemTypeDetails s model.ItemTypeID = some itemType)
    (hq : getLimitUtilizationForGroup s model.GroupID = some usage) :
    fileSizeMB model = F32.mul (F32.ofInt model.ItemSize) MB ∧
    ((checkPerItemTypeLimit s model f).err = none
      ↔ F32.gt f itemType.MaxItemSpace = false) ∧
    ((checkPerItemTypeLimit s model f).err
        = some (Err.itemTypeSize itemType.ItemTypeName itemType.MaxItemSpace)
      ↔ F32.gt f itemType.MaxItemSpace = true) ∧
    (F32.eq f itemType.MaxItemSpace = true → (checkPerItemTypeLimit s model f).err = none) := by
  have hpass : (checkPerItemTypeLimit s model f).err = none
      ↔ F32.gt f itemType.MaxItemSpace = false := by
    unfold checkPerItemTypeLimit
    simp only [ht, hq]
    by_cases hgt : F32.gt f itemType.MaxItemSpace = true <;> simp [hgt]
  refine ⟨rfl, hpass, ?_, ?_⟩
  · unfold checkPerItemTypeLimit
    simp only [ht, hq]
    by_cases hgt : F32.gt f itemType.MaxItemSpace = true <;> simp [hgt]
  · intro heq
    rw [hpass]
    cases hf : f <;> cases hm : itemType.MaxItemSpace <;>
      simp_all [F32.eq, F32.gt, F32.lt]

set_option exponentiation.threshold 2000 in
set_option maxRecDepth 4000 in
/-- C5 amended, at `roomyStore`: a file of 100,000,000 bytes has exactly the size
100 MB of the cap and passes. -/
theorem checkPerItemTypeLimit_inclusive_witness :
    F32.eq (fileSizeMB (candidate 100000000)) (F32.ofInt 100) = true ∧
    (checkPerItemTypeLimit roomyStore (candidate 100000000)
        (fileSizeMB (candidate 100000000))).err = none :=
  ⟨by decide,
    (checkPerItemTypeLimit_inclusive roomyStore (candidate 100000000)
      (fileSizeMB (candidate 100000000))
      { ItemTypeID := 1, ItemTypeName := "Picture", MaxItemSpace := F32.ofInt 100 }
      (1, F32.mul (F32.ofInt 50000000) MB) (by decide) (by decide)).2.2.2 (by decide)⟩

/-- The halving loop returns 0 on 0. -/
theorem F32.bitLengthAux_zero (fuel : Nat) : F32.bitLengthAux fuel 0 = 0 := by
  cases fuel <;> simp [F32.bitLengthAux]

/-- The halving loop never counts more digits than the number has. -/
theorem F32.two_pow_bitLengthAux_le (fuel N : Nat) (hN : 0 < N) :
    2 ^ F32.bitLengthAux fuel N ≤ 2 * N := by
  induction fuel generalizing N with
  | zero =>
    simp only [F32.bitLengthAux, pow_zero]
    omega
  | succ fuel ih =>
    have hne : N ≠ 0 := by omega
    simp only [F32.bitLengthAux, hne, if_false, pow_succ]
    by_cases hhalf : N / 2 = 0
    · rw [hhalf, F32.bitLengthAux_zero]
      simp only [pow_zero]
      omega
    · have := ih (N / 2) (by omega)
      omega

/-- Rounding an integer number of units at most triples it. -/
theorem F32.roundUnits_zero_le (N : Nat) : F32.roundUnits N 0 ≤ 3 * N := by
  unfold F32.roundUnits
  simp only [Nat.zero_max, Nat.sub_zero]
  by_cases hN : N = 0
  · subst hN
    simp [F32.bitLength, F32.bitLengthAux]
  · have hpos : 0 < N := Nat.pos_of_ne_zero hN
    have hP : 2 ^ (F32.bitLength N - 24) ≤ 2 * N :=
      le_trans (Nat.pow_le_pow_right (by norm_num) (Nat.sub_le _ _))
        (F32.two_pow_bitLengthAux_le N N hpos)
    have hdiv : N / 2 ^ (F32.bitLength N - 24) * 2 ^ (F32.bitLength N - 24) ≤ N :=
      Nat.div_mul_le_self _ _
    split
    · rw [Nat.add_mul, Nat.one_mul]
      omega
    · omega

/-- Converting a 64-bit integer to `float32` never overflows. -/
theorem F32.ofInt_finite (x : Int) (hx : x.natAbs < 2 ^ 64) : ∃ n, F32.ofInt x = F32.fin n := by
  have hle := F32.roundUnits_zero_le (x.natAbs * 2 ^ 149)
  have hlt : F32.roundUnits (x.natAbs * 2 ^ 149) 0 < F32.overflowUnits := by
    have h1 : 3 * (x.natAbs * 2 ^ 149) < 2 ^ 128 * 2 ^ 149 := by
      have : 3 * x.natAbs < 2 ^ 128 := by
        have h64 : (2 : Nat) ^ 64 * 3 ≤ 2 ^ 128 := by norm_num
        omega
      calc 3 * (x.natAbs * 2 ^ 149) = 3 * x.natAbs * 2 ^ 149 := by ring
        _ < 2 ^ 128 * 2 ^ 149 := Nat.mul_lt_mul_of_pos_right this (by positivity)
    exact lt_of_le_of_lt hle h1
  unfold F32.ofInt F32.round
  simp only [not_le.mpr hlt, if_false]
  exact ⟨_, rfl⟩

/-- The aggregate over a single row with a 64-bit size returns count 1. -/
theorem aggregate_single (row : Item) (hsize : row.ItemSize.natAbs < 2 ^ 64) :
    ∃ size, aggregate [row] = some (1, size) := by
  obtain ⟨n, hn⟩ := F32.ofInt_finite row.ItemSize hsize
  refine ⟨F32.mul (F32.fin n) MB, ?_⟩
  have hs : scanTotalSize [row] = some (F32.fin n) := by
    unfold scanTotalSize
    simp only [List.map_cons, List.map_nil, List.sum_cons, List.sum_nil, add_zero, hn]
  unfold aggregate
  simp only [hs, List.length_singleton, Nat.cast_one]

/-- The per-user check does not read the group and item-type tables. -/
theorem checkPerUserLimits_tables (s : Store) (groups : List Group)
    (itemTypes : List ItemType) (model : Item) (f : F32) :
    checkPerUserLimits { s with groups := groups, itemTypes := itemTypes } model f
      = checkPerUserLimits s model f := rfl

/-- C6, refuted as stated: user 1 of `fullStore` has `MaxItemCount = 1` and one
item, and the message of the error returned for a second upload is not
"User is limited to 1 items". -/
theorem user_count_message_differs :
    (CheckLimits fullStore (some secondItem)).err.map Err.Error
      ≠ some "User is limited to 1 items" := by
  set_option exponentiation.threshold 2000 in
  set_option maxRecDepth 4000 in
  decide

/-- C6, amended: for a user with `MaxItemCount = 1` who already has one item, every
further `CheckLimits` call for an item created by that user, whatever its size,
group and type, fails with the message "User is limited to upload only 1 items";
only the user row and the user's items were queried, and the outcome does not
depend on the group and item-type tables. -/
theorem second_upload_hits_user_count (s : Store) (model : Item) (user : User) (row : Item)
    (hu : GetUserByUserID s model.CreatedBy = some user)
    (hmax : user.MaxItemCount = 1)
    (hrows : s.items.filter (fun i => i.CreatedBy == model.CreatedBy) = [row])
    (hsize : row.ItemSize.natAbs < 2 ^ 64) :
    (CheckLimits s (some model)).err = some (Err.userItemCount 1) ∧
    (Err.userItemCount 1).Error = "User is limited to upload only 1 items" ∧
    (CheckLimits s (some model)).queries
      = [Query.selectUser model.CreatedBy, Query.aggregateItemsOfUser model.CreatedBy] ∧
    ∀ (groups : List Group) (itemTypes : List ItemType),
      CheckLimits { s with groups := groups, itemTypes := itemTypes } (some model)
        = CheckLimits s (some model) := by
  obtain ⟨size, hagg⟩ := aggregate_single row hsize
  have hq : getLimitUtilizationForUser s model.CreatedBy = some (1, size) := by
    unfold getLimitUtilizationForUser
    rw [hrows, hagg]
  have hcheck : ∀ f, checkPerUserLimits s model f
      = ⟨some (Err.userItemCount 1),
          [Query.selectUser model.CreatedBy, Query.aggregateItemsOfUser model.CreatedBy]⟩ := by
    intro f
    unfold checkPerUserLimits
    simp [hu, hq, hmax]
  have hres : ∀ t : Store, (∀ f, checkPerUserLimits t model f = checkPerUserLimits s model f) →
      CheckLimits t (some model)
        = ⟨some (Err.userItemCount 1),
            [Query.selectUser model.CreatedBy, Query.aggregateItemsOfUser model.CreatedBy]⟩ := by
    intro t ht
    unfold CheckLimits
    simp [ht, hcheck]
  refine ⟨?_, by decide, ?_, ?_⟩
  · rw [hres s (fun _ => rfl)]
  · rw [hres s (fun _ => rfl)]
  · intro groups itemTypes
    rw [hres s (fun _ => rfl),
      hres { s with groups := groups, itemTypes := itemTypes }
        (fun f => checkPerUserLimits_tables s groups itemTypes model f)]

set_option exponentiation.threshold 2000 in
set_option maxRecDepth 4000 in
/-- C6 amended, at `fullStore`: the second upload of user 1 is rejected with the
item-count message. -/
theorem second_upload_hits_user_count_witness :
    (CheckLimits fullStore (some secondItem)).err.map Err.Error
      = some "User is limited to upload only 1 items" :=
  (congrArg (Option.map Err.Error)
    (second_upload_hits_user_count fullStore secondItem oneItemUser
      { ItemID := 1, ItemName := "first", ItemTypeID := 1, ItemSize := 50000000,
        GroupID := 1, Uploaded := true, ItemPath := "/uploads/a", CreatedBy := 1 }
      (by decide) (by decide) (by decide) (by decide)).1).trans (by decide)

/-- C7, the code at a failing input: the extension of "holiday.2019.jpg" is jpg, yet
`GetItemType` inspects the piece after the first dot, "2019", and rejects the file. -/
theorem GetItemType_two_dots_jpg :
    GetItemType "holiday.2019.jpg"
      = (ItemKind.ItemTypeUnknown, "2019",
          some ("Invalid file type - \x272019\x27. Supported types - pictures " ++
            "(\x27jpg\x27, \x27jpeg\x27 and \x27png\x27) and videos (\x27mp4\x27)")) := by
  decide

/-- C8, the code at a failing input: the extension of "clip.jpg.mov" is mov, yet
`GetItemType` inspects the piece after the first dot, "jpg", and classifies the
file as a picture with no error. -/
theorem GetItemType_two_dots_mov :
    GetItemType "clip.jpg.mov" = (ItemKind.ItemTypePictures, "jpg", none) := by
  decide

/-- C9. A session user whose `WorkflowStatus` is Pending (0) is never admitted:
`Authenticate` returns the redirect to the Unauthorized page instead of nil; and
when no user can be read from the session it returns the redirect to the login
page. -/
theorem Authenticate_blocks_pending (c : Controller) :
    (∀ user : User, c.sessionUser = some user → user.WorkflowStatus = 0 →
      (Authenticate c).2 = some (Result.Redirect Action.AccountUnauthorized)) ∧
    (c.sessionUser = none →
      (Authenticate c).2 = some (Result.Redirect Action.AccountIndex)) := by
  constructor
  · intro user hs hw
    simp [Authenticate, hs, hw, WorkflowStatus.GetStatusID]
  · intro hs
    simp [Authenticate, hs]

/-- C9 at `pendingSession`: the pending user is redirected to the Unauthorized page. -/
theorem Authenticate_blocks_pending_witness :
    (Authenticate pendingSession).2 = some (Result.Redirect Action.AccountUnauthorized) :=
  (Authenticate_blocks_pending pendingSession).1
    { UserID := 7, FirstName := "Bea", LastName := "B", WorkflowStatus := 0 } (by decide)
    (by decide)

/-- C10, the code at a failing input: for a session user whose `WorkflowStatus` is
Rejected (2) `Authenticate` returns nil, so the intercepted action runs. -/
theorem Authenticate_admits_rejected :
    WorkflowStatus.WorkflowStatusRejected.GetStatusID = 2 ∧
    (Authenticate rejectedSession).2 = none := by
  constructor <;> decide

/-- C11. For a caller whose user record has `IsAdmin = false`, the three admin
disposition actions `HandleGroup`, `HandleUser` and `HandleGroupAccess` return the
redirect to the Unauthorized page and leave every table of the store as it was,
whatever the other parameters are. -/
theorem non_admin_dispositions_change_nothing (s : Store) (c : Controller) (user : User)
    (hu : GetUserByUserID s (ParseInt (getKey c.flashOut "userID")).1 = some user)
    (hna : user.IsAdmin = false) :
    (∀ groupID approve : String,
      (Requests.HandleGroup s c groupID approve).1 = s ∧
      (Requests.HandleGroup s c groupID approve).2.2
        = Result.Redirect Action.AccountUnauthorized) ∧
    (∀ memberID approve : String,
      (Requests.HandleUser s c memberID approve).1 = s ∧
      (Requests.HandleUser s c memberID approve).2.2
        = Result.Redirect Action.AccountUnauthorized) ∧
    (∀ groupID memberID approve : String,
      (Requests.HandleGroupAccess s c groupID memberID approve).1 = s ∧
      (Requests.HandleGroupAccess s c groupID memberID approve).2.2
        = Result.Redirect Action.AccountUnauthorized) := by
  refine ⟨?_, ?_, ?_⟩
  · intro groupID approve
    simp [Requests.HandleGroup, hu, hna]
  · intro memberID approve
    simp [Requests.HandleUser, hu, hna]
  · intro groupID memberID approve
    simp [Requests.HandleGroupAccess, hu, hna]

/-- C11 at `workflowStore`: user 2 is no administrator and an attempt to reject
group 3 changes nothing. -/
theorem non_admin_dispositions_change_nothing_witness :
    (Requests.HandleGroup workflowStore plainUserRequest "3" "false").1 = workflowStore :=
  ((non_admin_dispositions_change_nothing workflowStore plainUserRequest
    { UserID := 2, FirstName := "Bea", WorkflowStatus := 1 } (by decide) (by decide)).1
      "3" "false").1

/-- On a table without the name and without the key, the insert of `Group.Add`
appends the row and reads it back. -/
theorem insertGroup_fresh (s : Store) (model : Group) (assigned : Int)
    (hname : ∀ g ∈ s.groups, g.GroupName ≠ (Group.insertedRow model assigned).GroupName)
    (hkey : ∀ g ∈ s.groups, g.GroupID ≠ (Group.insertedRow model assigned).GroupID) :
    insertGroup s model assigned
      = some ({ s with groups := s.groups ++ [Group.insertedRow model assigned] },
          Group.insertedRow model assigned) := by
  unfold insertGroup
  rw [if_neg]
  simp only [List.any_eq_true, Bool.or_eq_true, beq_iff_eq, not_exists, not_and, not_or]
  intro g hg
  exact ⟨hkey g hg, hname g hg⟩

/-- On a table that holds the name, the insert of `Group.Add` is reported as a
failure. -/
theorem insertGroup_existing_name (s : Store) (model : Group) (assigned : Int)
    (hname : ∃ g ∈ s.groups, g.GroupName = (Group.insertedRow model assigned).GroupName) :
    insertGroup s model assigned = none := by
  unfold insertGroup
  rw [if_pos]
  obtain ⟨g, hg, hn⟩ := hname
  simp only [List.any_eq_true, Bool.or_eq_true, beq_iff_eq]
  exact ⟨g, hg, Or.inr hn⟩

/-- The inserted row keeps the name of the model. -/
theorem Group.insertedRow_GroupName (model : Group) (assigned : Int) :
    (Group.insertedRow model assigned).GroupName = model.GroupName := by
  unfold Group.insertedRow
  split <;> rfl

/-- A membership row with a new pair is appended when the insert reaches the
database. -/
theorem insertUserGroupMap_fresh (s : Store) (row : UserGroupMap)
    (hnew : ∀ m ∈ s.userGroupMaps, ¬ (m.UserID = row.UserID ∧ m.GroupID = row.GroupID)) :
    insertUserGroupMap s row false
      = some ({ s with userGroupMaps := s.userGroupMaps ++ [row] }, 1) := by
  unfold insertUserGroupMap
  rw [if_neg Bool.false_ne_true, if_neg]
  simp only [List.any_eq_true, Bool.and_eq_true, beq_iff_eq, not_exists, not_and]
  intro m hm h1 h2
  exact hnew m hm ⟨h1, h2⟩

/-- Reading back a key that was just assigned. -/
theorem getKey_setKey (m : List (String × String)) (key value : String) :
    getKey (setKey m key value) key = value := by
  simp [getKey, setKey, List.find?]

/-- `Group.Add` for a new model (no key yet) whose name is not in use, with a fresh
key drawn by the database: one group row and one leader membership row are appended
and nil is returned. -/
theorem Group.Add_fresh (s : Store) (model : Group) (assigned : Int)
    (hnew : model.GroupID = 0)
    (hname : ∀ g ∈ s.groups, g.GroupName ≠ model.GroupName)
    (hkey : ∀ g ∈ s.groups, g.GroupID ≠ assigned)
    (hmaps : ∀ m ∈ s.userGroupMaps, m.GroupID ≠ assigned) :
    Group.Add s model assigned
      = ({ s with
            groups := s.groups ++ [{ model with GroupID := assigned }]
            userGroupMaps := s.userGroupMaps ++
              [{ UserID := model.CreatedBy, GroupID := assigned, IsLeader := true,
                 CreatedBy := model.CreatedBy, WorkflowStatus := 1 }] },
          { model with GroupID := assigned, WorkflowStatus := 0 }, none) := by
  have hrow : Group.insertedRow model assigned = { model with GroupID := assigned } := by
    unfold Group.insertedRow
    rw [if_pos hnew]
  have hins := insertGroup_fresh s model assigned
    (by rw [hrow]; exact hname) (by rw [hrow]; exact hkey)
  rw [hrow] at hins
  have hmap := insertUserGroupMap_fresh
    { s with groups := s.groups ++ [{ model with GroupID := assigned }] }
    { UserID := model.CreatedBy, GroupID := assigned, IsLeader := true,
      CreatedBy := model.CreatedBy, WorkflowStatus := 1 }
    (fun m hm h => hmaps m hm h.2)
  unfold Group.Add Group.AddAt
  simp only [hins, WorkflowStatus.GetStatusID]
  rw [hmap]
  simp only [Nat.lt_irrefl, if_false]

/-- C12. `Group.Create` with a valid name that is not in use, for a caller whose id
is read from the flash map, with the database drawing a fresh key: exactly one row
is appended to `Groups`, with `WorkflowStatus` Pending (0) and the default limits,
and exactly one row to `UserGroupMap`, for the creator and the new group, with
`IsLeader = true` and `WorkflowStatus` Approved (1); `Group.Add` returns nil and
the success message is set. -/
theorem Group.Create_inserts_group_and_leader (s : Store) (c : Controller) (group : String)
    (assigned : Int)
    (hid : (ParseInt (getKey c.flashOut "userID")).2 = false)
    (hcreator : (ParseInt (getKey c.flashOut "userID")).1 ≠ 0)
    (hvalid : validGroupName group = true)
    (hname : ∀ g ∈ s.groups, g.GroupName ≠ group)
    (hzero : assigned ≠ 0)
    (hkey : ∀ g ∈ s.groups, g.GroupID ≠ assigned)
    (hmaps : ∀ m ∈ s.userGroupMaps, m.GroupID ≠ assigned) :
    (Group.Create s c group assigned).1
      = { s with
          groups := s.groups ++
            [{ GroupID := assigned, GroupName := group,
               CreatedBy := (ParseInt (getKey c.flashOut "userID")).1,
               WorkflowStatus := WorkflowStatus.WorkflowStatusPending.GetStatusID,
               MaxItemCount := GroupMaxAllowedItems, MaxItemSpace := GroupMaxAllowedSpace }]
          userGroupMaps := s.userGroupMaps ++
            [{ UserID := (ParseInt (getKey c.flashOut "userID")).1, GroupID := assigned,
               IsLeader := true, CreatedBy := (ParseInt (getKey c.flashOut "userID")).1,
               WorkflowStatus := WorkflowStatus.WorkflowStatusApproved.GetStatusID }] } ∧
    (Group.Add s
        { GroupName := group, CreatedBy := (ParseInt (getKey c.flashOut "userID")).1,
          MaxItemCount := GroupMaxAllowedItems, MaxItemSpace := GroupMaxAllowedSpace }
        assigned).2.2 = none ∧
    getKey (Group.Create s c group assigned).2.1.flashOut "success"
      = "Group created successfully" := by
  have hadd := Group.Add_fresh s
    { GroupName := group, CreatedBy := (ParseInt (getKey c.flashOut "userID")).1,
      MaxItemCount := GroupMaxAllowedItems, MaxItemSpace := GroupMaxAllowedSpace }
    assigned rfl hname hkey hmaps
  have hcreate : Group.Create s c group assigned
      = ((Group.Add s
            { GroupName := group, CreatedBy := (ParseInt (getKey c.flashOut "userID")).1,
              MaxItemCount := GroupMaxAllowedItems, MaxItemSpace := GroupMaxAllowedSpace }
            assigned).1,
          c.keepLoggedInUser.flashSuccess "Group created successfully",
          Result.Redirect Action.GroupIndex) := by
    unfold Group.Create
    rw [if_neg (by rw [hid]; exact Bool.false_ne_true),
      if_neg (by rw [hvalid]; exact Bool.false_ne_true)]
    dsimp only
    rw [hadd]
    rfl
  refine ⟨?_, ?_, ?_⟩
  · rw [hcreate, hadd]
    simp only [WorkflowStatus.GetStatusID]
  · rw [hadd]
  · rw [hcreate]
    exact getKey_setKey _ _ _

/-- C12 at `workflowStore`: user 2 creates the group "New group", which gets key 4. -/
theorem Group.Create_inserts_group_and_leader_witness :
    getKey (Group.Create workflowStore plainUserRequest "New group" 4).2.1.flashOut "success"
      = "Group created successfully" :=
  (Group.Create_inserts_group_and_leader workflowStore plainUserRequest "New group" 4
    (by decide) (by decide) (by decide) (by decide) (by decide) (by decide) (by decide)).2.2

/-- C13. When a group with the same name already exists, `Group.Add` writes nothing,
neither to `Groups` nor to `UserGroupMap`, leaves the model as it was and returns
the error "Unable to create user group at the moment": the insert of the group row
is reported as a failure and the call ends before the membership insert.  This
holds for every model, with or without a key, and whatever would have become of the
second statement. -/
theorem Group.Add_existing_name (s : Store) (model : Group) (assigned : Int)
    (hname : ∃ g ∈ s.groups, g.GroupName = model.GroupName) :
    Group.Add s model assigned
      = (s, model, some "Unable to create user group at the moment") ∧
    (∀ failed, Group.AddAt failed s model assigned
      = (s, model, some "Unable to create user group at the moment")) := by
  have hins := insertGroup_existing_name s model assigned
    (by rw [Group.insertedRow_GroupName]; exact hname)
  have hall : ∀ failed, Group.AddAt failed s model assigned
      = (s, model, some "Unable to create user group at the moment") := by
    intro failed
    unfold Group.AddAt
    rw [hins]
  exact ⟨hall false, hall⟩

set_option exponentiation.threshold 2000 in
set_option maxRecDepth 8000 in
/-- C13 at `workflowStore`: a second group named "Old" is refused and the store is
left as it was, both for a new model and for one that carries the key 7. -/
theorem Group.Add_existing_name_witness :
    (Group.Add workflowStore { GroupName := "Old", CreatedBy := 3 } 4).1 = workflowStore ∧
    (Group.Add workflowStore { GroupName := "Old", CreatedBy := 3 } 4).2.2
      = some "Unable to create user group at the moment" ∧
    (Group.Add workflowStore { GroupID := 7, GroupName := "Old", CreatedBy := 3 } 4).1
      = workflowStore :=
  have h1 := Group.Add_existing_name workflowStore { GroupName := "Old", CreatedBy := 3 } 4
    (by decide)
  have h2 := Group.Add_existing_name workflowStore
    { GroupID := 7, GroupName := "Old", CreatedBy := 3 } 4 (by decide)
  ⟨by rw [h1.1], by rw [h1.1], by rw [h2.1]⟩

/-- A list with a member that satisfies the predicate has a non-empty filter. -/
theorem filter_length_of_mem {α : Type} (l : List α) (p : α → Bool) (a : α)
    (ha : a ∈ l) (hp : p a = true) : ¬ (l.filter p).length < 1 := by
  have hmem : a ∈ l.filter p := List.mem_filter.mpr ⟨ha, hp⟩
  have hpos : 0 < (l.filter p).length := List.length_pos_of_mem hmem
  omega

/-- A list without a member that satisfies the predicate has an empty filter. -/
theorem filter_length_of_none {α : Type} (l : List α) (p : α → Bool)
    (hp : ∀ a ∈ l, p a = false) : (l.filter p).length < 1 := by
  have hnil : l.filter p = [] := by
    rw [List.filter_eq_nil_iff]
    intro a ha
    simp [hp a ha]
  rw [hnil]
  exact Nat.zero_lt_one

/-- C14. `Group.ApproveOrReject` and `User.ApproveOrReject`, applied to the key of an
existing row, return nil and leave the store as it was except that the rows with
that key have `WorkflowStatus` Approved (1) when `approve` is true and Rejected (2)
when it is false; applied to a key with no row they return an error and change
nothing. -/
theorem ApproveOrReject_sets_status (s : Store) (approve : Bool) :
    (∀ model : Group, (∃ g ∈ s.groups, g.GroupID = model.GroupID) →
      Group.ApproveOrReject s model approve
        = ({ s with groups := s.groups.map (fun g =>
              if g.GroupID == model.GroupID then
                { g with WorkflowStatus := if approve then 1 else 2 }
              else g) }, none)) ∧
    (∀ model : Group, (∀ g ∈ s.groups, g.GroupID ≠ model.GroupID) →
      Group.ApproveOrReject s model approve = (s, some unableToPerform)) ∧
    (∀ model : User, (∃ u ∈ s.users, u.UserID = model.UserID) →
      User.ApproveOrReject s model approve
        = ({ s with users := s.users.map (fun u =>
              if u.UserID == model.UserID then
                { u with WorkflowStatus := if approve then 1 else 2 }
              else u) }, none)) ∧
    (∀ model : User, (∀ u ∈ s.users, u.UserID ≠ model.UserID) →
      User.ApproveOrReject s model approve = (s, some unableToPerform)) := by
  refine ⟨?_, ?_, ?_, ?_⟩
  · intro model hex
    obtain ⟨g, hg, hk⟩ := hex
    have hrows := filter_length_of_mem s.groups (fun g => g.GroupID == model.GroupID) g hg
      (by simp [hk])
    unfold Group.ApproveOrReject
    simp only [hrows, if_false]
    cases approve <;> rfl
  · intro model hno
    have hrows := filter_length_of_none s.groups (fun g => g.GroupID == model.GroupID)
      (fun g hg => by simp [hno g hg])
    unfold Group.ApproveOrReject
    simp only [hrows, if_true]
  · intro model hex
    obtain ⟨u, hu, hk⟩ := hex
    have hrows := filter_length_of_mem s.users (fun u => u.UserID == model.UserID) u hu
      (by simp [hk])
    unfold User.ApproveOrReject
    simp only [hrows, if_false]
    cases approve <;> rfl
  · intro model hno
    have hrows := filter_length_of_none s.users (fun u => u.UserID == model.UserID)
      (fun u hu => by simp [hno u hu])
    unfold User.ApproveOrReject
    simp only [hrows, if_true]

set_option exponentiation.threshold 2000 in
set_option maxRecDepth 4000 in
/-- C14 at `workflowStore`: rejecting user 2 returns nil and only that row changes. -/
theorem ApproveOrReject_sets_status_witness :
    User.ApproveOrReject workflowStore { UserID := 2 } false
      = ({ workflowStore with users :=
            [{ UserID := 1, FirstName := "Root", IsAdmin := true, WorkflowStatus := 1 },
             { UserID := 2, FirstName := "Bea", WorkflowStatus := 2 },
             { UserID := 3, FirstName := "Cy", WorkflowStatus := 2 }] }, none) :=
  ((ApproveOrReject_sets_status workflowStore false).2.2.1 { UserID := 2 }
    (by decide)).trans (by decide)

/-- `Group.ApproveOrReject` on the key of an existing row. -/
theorem Group.ApproveOrReject_existing (s : Store) (model : Group) (approve : Bool)
    (hex : ∃ g ∈ s.groups, g.GroupID = model.GroupID) :
    Group.ApproveOrReject s model approve
      = ({ s with groups := s.groups.map (fun g =>
            if g.GroupID == model.GroupID then
              { g with WorkflowStatus := if approve then 1 else 2 }
            else g) }, none) := by
  obtain ⟨g, hg, hk⟩ := hex
  have hrows := filter_length_of_mem s.groups (fun g => g.GroupID == model.GroupID) g hg
    (by simp [hk])
  unfold Group.ApproveOrReject
  simp only [hrows, if_false]
  cases approve <;> rfl

/-- `User.ApproveOrReject` on the key of an existing row. -/
theorem User.ApproveOrReject_on_row (s : Store) (model : User) (approve : Bool)
    (hex : ∃ u ∈ s.users, u.UserID = model.UserID) :
    User.ApproveOrReject s model approve
      = ({ s with users := s.users.map (fun u =>
            if u.UserID == model.UserID then
              { u with WorkflowStatus := if approve then 1 else 2 }
            else u) }, none) := by
  obtain ⟨u, hu, hk⟩ := hex
  have hrows := filter_length_of_mem s.users (fun u => u.UserID == model.UserID) u hu
    (by simp [hk])
  unfold User.ApproveOrReject
  simp only [hrows, if_false]
  cases approve <;> rfl

set_option exponentiation.threshold 2000 in
set_option maxRecDepth 4000 in
/-- C15, refuted as stated: group 3 of `workflowStore` is Approved, and
`Group.ApproveOrReject` with `approve = false` changes its status to Rejected. -/
theorem approved_group_can_be_rejected :
    ¬ (∀ (s : Store) (model : Group) (approve : Bool) (g : Group),
        g ∈ s.groups → g.GroupID = model.GroupID →
        (g.WorkflowStatus = 1 ∨ g.WorkflowStatus = 2) →
        ∀ g1 ∈ (Group.ApproveOrReject s model approve).1.groups,
          g1.GroupID = model.GroupID → g1.WorkflowStatus = g.WorkflowStatus) := by
  intro h
  have hbad := h workflowStore { GroupID := 3 } false
    { GroupID := 3, GroupName := "Old", CreatedBy := 2, WorkflowStatus := 1,
      MaxItemCount := 100, MaxItemSpace := F32.ofInt 500 }
    (by decide) rfl (Or.inl rfl)
    { GroupID := 3, GroupName := "Old", CreatedBy := 2, WorkflowStatus := 2,
      MaxItemCount := 100, MaxItemSpace := F32.ofInt 500 }
    (by decide) rfl
  exact absurd hbad (by decide)

/-- C15, amended: a group's status is not terminal in `Group.ApproveOrReject`.  For
every existing group row, whatever its current status, the call returns nil and
afterwards the row has `WorkflowStatus` Approved (1) when `approve` is true and
Rejected (2) when it is false; so the status of an Approved or Rejected group is
left as it was only when the flag asks for the status it already has. -/
theorem Group.ApproveOrReject_overwrites (s : Store) (model : Group) (approve : Bool)
    (hex : ∃ g ∈ s.groups, g.GroupID = model.GroupID) :
    (Group.ApproveOrReject s model approve).2 = none ∧
    ∀ g1 ∈ (Group.ApproveOrReject s model approve).1.groups,
      g1.GroupID = model.GroupID → g1.WorkflowStatus = if approve then 1 else 2 := by
  rw [Group.ApproveOrReject_existing s model approve hex]
  refine ⟨rfl, ?_⟩
  intro g1 hg1 hkey
  simp only [List.mem_map] at hg1
  obtain ⟨g, _, hg⟩ := hg1
  by_cases hk : (g.GroupID == model.GroupID) = true
  · rw [if_pos hk] at hg
    rw [← hg]
  · rw [if_neg hk] at hg
    rw [hg] at hk
    exact absurd (by simpa using hkey) hk

set_option exponentiation.threshold 2000 in
set_option maxRecDepth 4000 in
/-- C15 amended, at `workflowStore`: the Approved group 3 becomes Rejected. -/
theorem Group.ApproveOrReject_overwrites_witness :
    (Group.ApproveOrReject workflowStore { GroupID := 3 } false).2 = none ∧
    (Group.ApproveOrReject workflowStore { GroupID := 3 } false).1.groups
      = [{ GroupID := 3, GroupName := "Old", CreatedBy := 2, WorkflowStatus := 2,
           MaxItemCount := 100, MaxItemSpace := F32.ofInt 500 }] :=
  ⟨(Group.ApproveOrReject_overwrites workflowStore { GroupID := 3 } false (by decide)).1,
    by decide⟩

/-- C16, refuted as stated: user 3 of `workflowStore` is Rejected, and
`User.ApproveOrReject` with `approve = true` changes the status to Approved. -/
theorem rejected_user_can_be_approved :
    ¬ (∀ (s : Store) (model : User) (approve : Bool) (u : User),
        u ∈ s.users → u.UserID = model.UserID → u.WorkflowStatus = 2 →
        ∀ u1 ∈ (User.ApproveOrReject s model approve).1.users,
          u1.UserID = model.UserID → u1.WorkflowStatus ≠ 1 ∧ u1.WorkflowStatus ≠ 0) := by
  intro h
  have hbad := h workflowStore { UserID := 3 } true
    { UserID := 3, FirstName := "Cy", WorkflowStatus := 2 }
    (by decide) rfl rfl
    { UserID := 3, FirstName := "Cy", WorkflowStatus := 1 }
    (by decide) rfl
  exact absurd rfl hbad.1

/-- C16, amended: Rejected is not terminal in `User.ApproveOrReject`.  For every
existing user row, also a Rejected one, the call returns nil and afterwards the
row is Approved (1) when `approve` is true and Rejected (2) when it is false; no
call changes the status to Pending (0). -/
theorem User.ApproveOrReject_rewrites_rejected (s : Store) (model : User) (approve : Bool)
    (hex : ∃ u ∈ s.users, u.UserID = model.UserID) :
    (User.ApproveOrReject s model approve).2 = none ∧
    ∀ u1 ∈ (User.ApproveOrReject s model approve).1.users,
      u1.UserID = model.UserID →
        u1.WorkflowStatus = (if approve then 1 else 2) ∧ u1.WorkflowStatus ≠ 0 := by
  rw [User.ApproveOrReject_on_row s model approve hex]
  refine ⟨rfl, ?_⟩
  intro u1 hu1 hkey
  simp only [List.mem_map] at hu1
  obtain ⟨u, _, hu⟩ := hu1
  by_cases hk : (u.UserID == model.UserID) = true
  · rw [if_pos hk] at hu
    rw [← hu]
    cases approve <;> simp
  · rw [if_neg hk] at hu
    rw [hu] at hk
    exact absurd (by simpa using hkey) hk

/-- C16 amended, at `workflowStore`: the Rejected user 3 becomes Approved. -/
theorem User.ApproveOrReject_rewrites_rejected_witness :
    (User.ApproveOrReject workflowStore { UserID := 3 } true).2 = none ∧
    (User.ApproveOrReject workflowStore { UserID := 3 } true).1.users
      = [{ UserID := 1, FirstName := "Root", IsAdmin := true, WorkflowStatus := 1 },
         { UserID := 2, FirstName := "Bea", WorkflowStatus := 1 },
         { UserID := 3, FirstName := "Cy", WorkflowStatus := 1 }] :=
  ⟨(User.ApproveOrReject_rewrites_rejected workflowStore { UserID := 3 } true (by decide)).1,
    by decide⟩

/-- An update by key affects at least one row when the select by that key found one. -/
theorem updateUserGroupMap_affected (s : Store) (userID groupID : Int)
    (assign : UserGroupMap → UserGroupMap) (row : UserGroupMap)
    (hrow : selectUserGroupMap s userID groupID = some row) :
    ¬ (updateUserGroupMap s userID groupID assign).2 < 1 := by
  unfold selectUserGroupMap at hrow
  have hp := List.find?_some hrow
  show ¬ (s.userGroupMaps.filter
    (fun m => m.UserID == userID && m.GroupID == groupID)).length < 1
  exact filter_length_of_mem s.userGroupMaps
    (fun m => m.UserID == userID && m.GroupID == groupID) row
    (List.mem_of_find?_eq_some hrow) hp

/-- `UserGroupMap.UpgradeToGroupLead` when the row of the pair exists. -/
theorem UserGroupMap.UpgradeToGroupLead_existing (s : Store) (model row : UserGroupMap)
    (hrow : selectUserGroupMap s model.UserID model.GroupID = some row) :
    UserGroupMap.UpgradeToGroupLead s (some model)
      = ({ s with userGroupMaps := s.userGroupMaps.map (fun m =>
            if m.UserID == model.UserID && m.GroupID == model.GroupID then
              { m with WorkflowStatus := 0, IsLeader := true }
            else m) }, none) := by
  have haff := updateUserGroupMap_affected s model.UserID model.GroupID (fun m =>
    { m with WorkflowStatus := WorkflowStatus.WorkflowStatusPending.GetStatusID
             IsLeader := true }) row hrow
  unfold UserGroupMap.UpgradeToGroupLead
  simp only [hrow, haff, if_false]
  rfl

/-- C17, the code at a failing input: in `pendingLeaderStore` the membership row of
user 3 for group 3 has `IsLeader = true` but is Pending, not Approved; yet
`UserGroupMap.Add` called by user 3 returns nil and inserts the new member. -/
theorem UserGroupMap.Add_by_pending_leader :
    selectUserGroupMap pendingLeaderStore 3 3
      = some { UserID := 3, GroupID := 3, IsLeader := true, CreatedBy := 2,
               WorkflowStatus := 0 } ∧
    (UserGroupMap.Add pendingLeaderStore { UserID := 1, GroupID := 3, CreatedBy := 3 } 3).2
      = none ∧
    (UserGroupMap.Add pendingLeaderStore { UserID := 1, GroupID := 3, CreatedBy := 3 }
        3).1.userGroupMaps
      = pendingLeaderStore.userGroupMaps ++
          [{ UserID := 1, GroupID := 3, IsLeader := false, CreatedBy := 3,
             WorkflowStatus := 1 }] := by
  refine ⟨?_, ?_, ?_⟩ <;> decide

/-- C18. `UserGroupMap.Add` invoked by a caller whose membership row for the group
has `IsLeader = true`, for a model with both key columns set: if the pair of the
model was absent, the store afterwards is the old store plus one row, the model
with `WorkflowStatus` Approved (1), and nil is returned; if the pair was present,
the store is the old store unchanged (the existing row keeps its status and its
leader flag). -/
theorem UserGroupMap.Add_by_leader (s : Store) (model : UserGroupMap) (userID : Int)
    (caller : UserGroupMap)
    (hcaller : selectUserGroupMap s userID model.GroupID = some caller)
    (hleader : caller.IsLeader = true)
    (huser : model.UserID ≠ 0) (hgroup : model.GroupID ≠ 0) :
    ((∀ m ∈ s.userGroupMaps, ¬ (m.UserID = model.UserID ∧ m.GroupID = model.GroupID)) →
      UserGroupMap.Add s model userID
        = ({ s with userGroupMaps := s.userGroupMaps ++ [{ model with WorkflowStatus := 1 }] },
            none)) ∧
    ((∃ m ∈ s.userGroupMaps, m.UserID = model.UserID ∧ m.GroupID = model.GroupID) →
      UserGroupMap.Add s model userID = (s, some unableToProcess)) := by
  constructor
  · intro hnew
    have hins := insertUserGroupMap_fresh s { model with WorkflowStatus := 1 } hnew
    unfold UserGroupMap.Add
    simp only [hcaller, hleader, WorkflowStatus.GetStatusID, hins]
    rfl
  · intro hold
    obtain ⟨m, hm, h1, h2⟩ := hold
    have hins : insertUserGroupMap s { model with WorkflowStatus := 1 } false
        = some (s, 0) := by
      unfold insertUserGroupMap
      rw [if_neg Bool.false_ne_true, if_pos]
      simp only [List.any_eq_true, Bool.and_eq_true, beq_iff_eq]
      exact ⟨m, hm, h1, h2⟩
    unfold UserGroupMap.Add
    simp only [hcaller, hleader, WorkflowStatus.GetStatusID, hins]
    rfl

/-- C18 at `workflowStore`: the leader, user 2, adds user 1 to group 3. -/
theorem UserGroupMap.Add_by_leader_witness :
    UserGroupMap.Add workflowStore { UserID := 1, GroupID := 3, CreatedBy := 2 } 2
      = ({ workflowStore with userGroupMaps := workflowStore.userGroupMaps ++
            [{ UserID := 1, GroupID := 3, IsLeader := false, CreatedBy := 2,
               WorkflowStatus := 1 }] }, none) :=
  (UserGroupMap.Add_by_leader workflowStore { UserID := 1, GroupID := 3, CreatedBy := 2 } 2
    { UserID := 2, GroupID := 3, IsLeader := true, CreatedBy := 2, WorkflowStatus := 1 }
    (by decide) (by decide) (by decide) (by decide)).1 (by decide)

/-- C19, refuted as stated: in `pendingLeaderStore` the membership row of user 3 for
group 3 is Pending, not Approved, and `UserGroupMap.UpgradeToGroupLead` for that
pair returns nil instead of an error. -/
theorem upgrade_of_pending_row_succeeds :
    ¬ (∀ (s : Store) (model row : UserGroupMap),
        selectUserGroupMap s model.UserID model.GroupID = some row →
        row.WorkflowStatus ≠ 1 →
          (UserGroupMap.UpgradeToGroupLead s (some model)).2 ≠ none ∧
          (UserGroupMap.UpgradeToGroupLead s (some model)).1 = s) := by
  intro h
  have hbad := h pendingLeaderStore { UserID := 3, GroupID := 3 }
    { UserID := 3, GroupID := 3, IsLeader := true, CreatedBy := 2, WorkflowStatus := 0 }
    (by decide) (by decide)
  exact absurd (by decide) hbad.1

/-- C19, amended: `UserGroupMap.UpgradeToGroupLead` requires an existing membership
row for the pair, whatever its status.  When no row exists for the pair it returns
the error "User does not have access to the group" and leaves the store unchanged;
when a row exists, Approved or not, it returns nil. -/
theorem UserGroupMap.UpgradeToGroupLead_requires_row (s : Store) (model : UserGroupMap) :
    (selectUserGroupMap s model.UserID model.GroupID = none →
      UserGroupMap.UpgradeToGroupLead s (some model)
        = (s, some "User does not have access to the group")) ∧
    (∀ row : UserGroupMap, selectUserGroupMap s model.UserID model.GroupID = some row →
      (UserGroupMap.UpgradeToGroupLead s (some model)).2 = none) := by
  constructor
  · intro hnone
    unfold UserGroupMap.UpgradeToGroupLead
    simp only [hnone]
  · intro row hrow
    rw [UserGroupMap.UpgradeToGroupLead_existing s model row hrow]

/-- C19 amended, at `workflowStore`: user 1 has no membership row for group 3 and
the request is refused. -/
theorem UserGroupMap.UpgradeToGroupLead_requires_row_witness :
    UserGroupMap.UpgradeToGroupLead workflowStore (some { UserID := 1, GroupID := 3 })
      = (workflowStore, some "User does not have access to the group") :=
  (UserGroupMap.UpgradeToGroupLead_requires_row workflowStore { UserID := 1, GroupID := 3 }).1
    (by decide)

/-- C20. On success, that is when the row of the pair exists,
`UserGroupMap.UpgradeToGroupLead` returns nil and rewrites the table in place: the
rows of that pair get `WorkflowStatus` Pending (0) and `IsLeader = true` with
their other fields kept, every other row and every other table is unchanged, and
the number of rows is the same. -/
theorem UserGroupMap.UpgradeToGroupLead_in_place (s : Store) (model row : UserGroupMap)
    (hrow : selectUserGroupMap s model.UserID model.GroupID = some row) :
    UserGroupMap.UpgradeToGroupLead s (some model)
      = ({ s with userGroupMaps := s.userGroupMaps.map (fun m =>
            if m.UserID == model.UserID && m.GroupID == model.GroupID then
              { UserID := m.UserID, GroupID := m.GroupID, IsLeader := true,
                CreatedBy := m.CreatedBy, WorkflowStatus := 0 }
            else m) }, none) ∧
    (UserGroupMap.UpgradeToGroupLead s (some model)).1.userGroupMaps.length
      = s.userGroupMaps.length := by
  rw [UserGroupMap.UpgradeToGroupLead_existing s model row hrow]
  exact ⟨rfl, List.length_map _ _⟩

/-- C20 at `workflowStore`: user 3 asks for group-lead access to group 3. -/
theorem UserGroupMap.UpgradeToGroupLead_in_place_witness :
    (UserGroupMap.UpgradeToGroupLead workflowStore
        (some { UserID := 3, GroupID := 3 })).1.userGroupMaps
      = [{ UserID := 2, GroupID := 3, IsLeader := true, CreatedBy := 2, WorkflowStatus := 1 },
         { UserID := 3, GroupID := 3, IsLeader := true, CreatedBy := 2, WorkflowStatus := 0 }] :=
  (congrArg (fun r => r.1.userGroupMaps)
    (UserGroupMap.UpgradeToGroupLead_in_place workflowStore { UserID := 3, GroupID := 3 }
      { UserID := 3, GroupID := 3, IsLeader := false, CreatedBy := 2, WorkflowStatus := 1 }
      (by decide)).1).trans (by decide)

/-- Selecting by key after the rows were rewritten by a function that keeps the test
of the key gives the rewritten row. -/
theorem find?_map_of_keep {α : Type} (l : List α) (p : α → Bool) (f : α → α)
    (hkeep : ∀ a, p (f a) = p a) :
    (l.map f).find? p = (l.find? p).map f := by
  induction l with
  | nil => rfl
  | cons a l ih =>
    simp only [List.map_cons, List.find?_cons, hkeep]
    split
    · rfl
    · exact ih

/-- `UserGroupMap.ApproveOrReject` with `approve = true` when the group row and the
membership row exist. -/
theorem UserGroupMap.ApproveOrReject_approve (s : Store) (model row : UserGroupMap)
    (group : Group)
    (hgroup : GetGroupDetailUsingID s model.GroupID = some group)
    (hrow : selectUserGroupMap s model.UserID model.GroupID = some row) :
    UserGroupMap.ApproveOrReject s model true
      = ({ s with userGroupMaps := s.userGroupMaps.map (fun m =>
            if m.UserID == model.UserID && m.GroupID == model.GroupID then
              { m with WorkflowStatus := 1 }
            else m) }, none) := by
  have haff := updateUserGroupMap_affected s model.UserID model.GroupID (fun m =>
    { m with WorkflowStatus := WorkflowStatus.WorkflowStatusApproved.GetStatusID }) row hrow
  unfold UserGroupMap.ApproveOrReject
  simp only [hgroup, hrow, haff, if_true, if_false]
  rfl

/-- `UserGroupMap.ApproveOrReject` with `approve = false` for a user who did not
create the group and whose row has `IsLeader = true`. -/
theorem UserGroupMap.ApproveOrReject_demote (s : Store) (model row : UserGroupMap)
    (group : Group)
    (hgroup : GetGroupDetailUsingID s model.GroupID = some group)
    (hother : group.CreatedBy ≠ model.UserID)
    (hrow : selectUserGroupMap s model.UserID model.GroupID = some row)
    (hleader : row.IsLeader = true) :
    UserGroupMap.ApproveOrReject s model false
      = ({ s with userGroupMaps := s.userGroupMaps.map (fun m =>
            if m.UserID == model.UserID && m.GroupID == model.GroupID then
              { m with WorkflowStatus := 1, IsLeader := false }
            else m) }, none) := by
  have haff := updateUserGroupMap_affected s model.UserID model.GroupID (fun m =>
    { m with WorkflowStatus := WorkflowStatus.WorkflowStatusApproved.GetStatusID
             IsLeader := false }) row hrow
  unfold UserGroupMap.ApproveOrReject
  simp only [hgroup, hrow, haff, hother, hleader, if_true, if_false, Bool.false_eq_true]
  rfl

set_option exponentiation.threshold 2000 in
set_option maxRecDepth 4000 in
/-- C21, refuted as stated: user 2 created group 3 of `workflowStore`, and
`UserGroupMap.ApproveOrReject` for the membership of user 2 with `approve = true`
returns nil instead of the "Create Group" error. -/
theorem creator_membership_can_be_approved :
    ¬ (∀ (s : Store) (model row : UserGroupMap) (group : Group) (approve : Bool),
        GetGroupDetailUsingID s model.GroupID = some group →
        group.CreatedBy = model.UserID →
        selectUserGroupMap s model.UserID model.GroupID = some row →
          (UserGroupMap.ApproveOrReject s model approve).2
              = some ("This request is associated with new group. " ++
                  "Please check the \x27Create Group\x27 requests") ∧
          (UserGroupMap.ApproveOrReject s model approve).1 = s) := by
  intro h
  have hbad := h workflowStore { UserID := 2, GroupID := 3 }
    { UserID := 2, GroupID := 3, IsLeader := true, CreatedBy := 2, WorkflowStatus := 1 }
    { GroupID := 3, GroupName := "Old", CreatedBy := 2, WorkflowStatus := 1,
      MaxItemCount := 100, MaxItemSpace := F32.ofInt 500 }
    true (by decide) rfl (by decide)
  have hnil : (UserGroupMap.ApproveOrReject workflowStore { UserID := 2, GroupID := 3 }
      true).2 = none := by decide
  rw [hnil] at hbad
  exact absurd hbad.1 (by simp)

/-- C21, amended: for a membership whose user created the group,
`UserGroupMap.ApproveOrReject` with `approve = false` fails with the error "This
request is associated with new group. Please check the 'Create Group' requests"
and leaves the store unchanged; with `approve = true` the creator is not looked
at: the row gets `WorkflowStatus` Approved (1), keeps its other fields, and nil is
returned. -/
theorem UserGroupMap.ApproveOrReject_creator (s : Store) (model row : UserGroupMap)
    (group : Group)
    (hgroup : GetGroupDetailUsingID s model.GroupID = some group)
    (hcreator : group.CreatedBy = model.UserID)
    (hrow : selectUserGroupMap s model.UserID model.GroupID = some row) :
    UserGroupMap.ApproveOrReject s model false
      = (s, some ("This request is associated with new group. " ++
          "Please check the \x27Create Group\x27 requests")) ∧
    UserGroupMap.ApproveOrReject s model true
      = ({ s with userGroupMaps := s.userGroupMaps.map (fun m =>
            if m.UserID == model.UserID && m.GroupID == model.GroupID then
              { UserID := m.UserID, GroupID := m.GroupID, IsLeader := m.IsLeader,
                CreatedBy := m.CreatedBy, WorkflowStatus := 1 }
            else m) }, none) := by
  constructor
  · unfold UserGroupMap.ApproveOrReject
    simp only [hgroup, hrow, hcreator, if_true, if_false, Bool.false_eq_true]
  · exact UserGroupMap.ApproveOrReject_approve s model row group hgroup hrow

set_option exponentiation.threshold 2000 in
set_option maxRecDepth 4000 in
/-- C21 amended, at `workflowStore`: rejecting the membership of the creator, user 2,
in group 3 fails and changes nothing. -/
theorem UserGroupMap.ApproveOrReject_creator_witness :
    UserGroupMap.ApproveOrReject workflowStore { UserID := 2, GroupID := 3 } false
      = (workflowStore,
          some "This request is associated with new group. Please check the \x27Create Group\x27 requests") :=
  ((UserGroupMap.ApproveOrReject_creator workflowStore { UserID := 2, GroupID := 3 }
    { UserID := 2, GroupID := 3, IsLeader := true, CreatedBy := 2, WorkflowStatus := 1 }
    { GroupID := 3, GroupName := "Old", CreatedBy := 2, WorkflowStatus := 1,
      MaxItemCount := 100, MaxItemSpace := F32.ofInt 500 }
    (by decide) rfl (by decide)).1).trans (by decide)

/-- C22. For a membership row of a user who is not the creator of the (existing)
group, `UpgradeToGroupLead` succeeds and a following
`UserGroupMap.ApproveOrReject` with `approve = false` returns nil and leaves the
store as it was at the start except that the row of the pair has
`IsLeader = false` and `WorkflowStatus` Approved (1): the row is still there and
the number of rows is the same. -/
theorem UserGroupMap.UpgradeToGroupLead_then_reject (s : Store) (model row : UserGroupMap)
    (group : Group)
    (hgroup : GetGroupDetailUsingID s model.GroupID = some group)
    (hother : group.CreatedBy ≠ model.UserID)
    (hrow : selectUserGroupMap s model.UserID model.GroupID = some row) :
    (UserGroupMap.UpgradeToGroupLead s (some model)).2 = none ∧
    UserGroupMap.ApproveOrReject (UserGroupMap.UpgradeToGroupLead s (some model)).1 model false
      = ({ s with userGroupMaps := s.userGroupMaps.map (fun m =>
            if m.UserID == model.UserID && m.GroupID == model.GroupID then
              { UserID := m.UserID, GroupID := m.GroupID, IsLeader := false,
                CreatedBy := m.CreatedBy, WorkflowStatus := 1 }
            else m) }, none) ∧
    (∃ m ∈ (UserGroupMap.ApproveOrReject (UserGroupMap.UpgradeToGroupLead s (some model)).1
          model false).1.userGroupMaps,
      m.UserID = model.UserID ∧ m.GroupID = model.GroupID ∧ m.IsLeader = false ∧
      m.WorkflowStatus = 1) ∧
    (UserGroupMap.ApproveOrReject (UserGroupMap.UpgradeToGroupLead s (some model)).1
        model false).1.userGroupMaps.length = s.userGroupMaps.length := by
  have hup := UserGroupMap.UpgradeToGroupLead_existing s model row hrow
  have hkey : (row.UserID == model.UserID && row.GroupID == model.GroupID) = true := by
    unfold selectUserGroupMap at hrow
    have hp := List.find?_some hrow
    exact hp
  have hsel : selectUserGroupMap
      { s with userGroupMaps := s.userGroupMaps.map (fun m =>
          if m.UserID == model.UserID && m.GroupID == model.GroupID then
            { m with WorkflowStatus := 0, IsLeader := true }
          else m) } model.UserID model.GroupID
      = some { row with WorkflowStatus := 0, IsLeader := true } := by
    unfold selectUserGroupMap at hrow ⊢
    simp only []
    rw [find?_map_of_keep, hrow, Option.map_some', if_pos hkey]
    intro a
    split <;> rfl
  have hdem := UserGroupMap.ApproveOrReject_demote
    { s with userGroupMaps := s.userGroupMaps.map (fun m =>
        if m.UserID == model.UserID && m.GroupID == model.GroupID then
          { m with WorkflowStatus := 0, IsLeader := true }
        else m) } model { row with WorkflowStatus := 0, IsLeader := true } group
    hgroup hother hsel rfl
  have hfinal : UserGroupMap.ApproveOrReject
      (UserGroupMap.UpgradeToGroupLead s (some model)).1 model false
      = ({ s with userGroupMaps := s.userGroupMaps.map (fun m =>
            if m.UserID == model.UserID && m.GroupID == model.GroupID then
              { UserID := m.UserID, GroupID := m.GroupID, IsLeader := false,
                CreatedBy := m.CreatedBy, WorkflowStatus := 1 }
            else m) }, none) := by
    rw [hup, hdem]
    simp only [List.map_map]
    congr 2
    apply List.map_congr_left
    intro m _
    simp only [Function.comp]
    by_cases hk : (m.UserID == model.UserID && m.GroupID == model.GroupID) = true
    · simp only [hk, if_true]
    · simp only [hk, if_false, Bool.false_eq_true]
  refine ⟨by rw [hup], hfinal, ?_, ?_⟩
  · rw [hfinal]
    refine ⟨{ UserID := row.UserID, GroupID := row.GroupID, IsLeader := false,
              CreatedBy := row.CreatedBy, WorkflowStatus := 1 }, ?_, ?_⟩
    · simp only [List.mem_map]
      unfold selectUserGroupMap at hrow
      exact ⟨row, List.mem_of_find?_eq_some hrow, by rw [if_pos hkey]⟩
    · simp only [Bool.and_eq_true, beq_iff_eq] at hkey
      exact ⟨hkey.1, hkey.2, rfl, rfl⟩
  · rw [hfinal]
    exact List.length_map _ _

set_option exponentiation.threshold 2000 in
set_option maxRecDepth 4000 in
/-- C22 at `workflowStore`: user 3 asks for group-lead access to group 3 and the
administrator rejects it. -/
theorem UserGroupMap.UpgradeToGroupLead_then_reject_witness :
    (UserGroupMap.ApproveOrReject
        (UserGroupMap.UpgradeToGroupLead workflowStore (some { UserID := 3, GroupID := 3 })).1
        { UserID := 3, GroupID := 3 } false).1.userGroupMaps
      = [{ UserID := 2, GroupID := 3, IsLeader := true, CreatedBy := 2, WorkflowStatus := 1 },
         { UserID := 3, GroupID := 3, IsLeader := false, CreatedBy := 2,
           WorkflowStatus := 1 }] :=
  (congrArg (fun r => r.1.userGroupMaps)
    (UserGroupMap.UpgradeToGroupLead_then_reject workflowStore { UserID := 3, GroupID := 3 }
      { UserID := 3, GroupID := 3, IsLeader := false, CreatedBy := 2, WorkflowStatus := 1 }
      { GroupID := 3, GroupName := "Old", CreatedBy := 2, WorkflowStatus := 1,
        MaxItemCount := 100, MaxItemSpace := F32.ofInt 500 }
      (by decide) (by decide) (by decide)).2.1).trans (by decide)

/-- C23. `UserGroupMap.ApproveOrReject` with `approve = true` on an existing
membership row of an existing group returns nil and leaves the store as it was
except that the row of the pair has `WorkflowStatus` Approved (1); its `IsLeader`
value and its other fields are as before, and no other row changes. -/
theorem UserGroupMap.ApproveOrReject_approve_keeps_leader (s : Store)
    (model row : UserGroupMap) (group : Group)
    (hgroup : GetGroupDetailUsingID s model.GroupID = some group)
    (hrow : selectUserGroupMap s model.UserID model.GroupID = some row) :
    UserGroupMap.ApproveOrReject s model true
      = ({ s with userGroupMaps := s.userGroupMaps.map (fun m =>
            if m.UserID == model.UserID && m.GroupID == model.GroupID then
              { UserID := m.UserID, GroupID := m.GroupID, IsLeader := m.IsLeader,
                CreatedBy := m.CreatedBy, WorkflowStatus := 1 }
            else m) }, none) :=
  UserGroupMap.ApproveOrReject_approve s model row group hgroup hrow

set_option exponentiation.threshold 2000 in
set_option maxRecDepth 4000 in
/-- C23 at `pendingLeaderStore`: the pending lead request of user 3 is approved and
the row stays a leader row. -/
theorem UserGroupMap.ApproveOrReject_approve_keeps_leader_witness :
    (UserGroupMap.ApproveOrReject pendingLeaderStore { UserID := 3, GroupID := 3 }
        true).1.userGroupMaps
      = [{ UserID := 2, GroupID := 3, IsLeader := true, CreatedBy := 2, WorkflowStatus := 1 },
         { UserID := 3, GroupID := 3, IsLeader := true, CreatedBy := 2,
           WorkflowStatus := 1 }] :=
  (congrArg (fun r => r.1.userGroupMaps)
    (UserGroupMap.ApproveOrReject_approve_keeps_leader pendingLeaderStore
      { UserID := 3, GroupID := 3 }
      { UserID := 3, GroupID := 3, IsLeader := true, CreatedBy := 2, WorkflowStatus := 0 }
      { GroupID := 3, GroupName := "Old", CreatedBy := 2, WorkflowStatus := 1,
        MaxItemCount := 100, MaxItemSpace := F32.ofInt 500 }
      (by decide) (by decide))).trans (by decide)

/-- The invariant only looks at table `UserGroupMap`. -/
theorem pairsUnique_of_same_rows (s t : Store) (hrows : t.userGroupMaps = s.userGroupMaps)
    (h : pairsUnique s) : pairsUnique t := by
  unfold pairsUnique at h ⊢
  rw [hrows]
  exact h

/-- The membership insert keeps the pairs unique. -/
theorem insertUserGroupMap_pairsUnique (s : Store) (row : UserGroupMap) (failed : Bool)
    (res : Store × Nat) (h : pairsUnique s)
    (hres : insertUserGroupMap s row failed = some res) : pairsUnique res.1 := by
  unfold insertUserGroupMap at hres
  split at hres
  · exact absurd hres (by simp)
  · split at hres
    · simp only [Option.some.injEq] at hres
      rw [← hres]
      exact h
    · rename_i hnew
      simp only [Option.some.injEq] at hres
      rw [← hres]
      unfold pairsUnique at h ⊢
      simp only [List.map_append, List.map_cons, List.map_nil]
      rw [List.nodup_append]
      refine ⟨h, List.nodup_singleton _, ?_⟩
      intro pair hin hsingle
      simp only [List.mem_singleton] at hsingle
      subst hsingle
      simp only [List.mem_map] at hin
      obtain ⟨m, hm, hpair⟩ := hin
      simp only [Prod.mk.injEq] at hpair
      apply hnew
      simp only [List.any_eq_true, Bool.and_eq_true, beq_iff_eq]
      exact ⟨m, hm, hpair.1, hpair.2⟩

/-- An update that does not touch the key columns keeps the pairs unique. -/
theorem updateUserGroupMap_pairsUnique (s : Store) (userID groupID : Int)
    (assign : UserGroupMap → UserGroupMap)
    (hkeep : ∀ m, (assign m).UserID = m.UserID ∧ (assign m).GroupID = m.GroupID)
    (h : pairsUnique s) : pairsUnique (updateUserGroupMap s userID groupID assign).1 := by
  unfold pairsUnique at h ⊢
  have hsame : ((updateUserGroupMap s userID groupID assign).1.userGroupMaps.map
      (fun m => (m.UserID, m.GroupID))) = s.userGroupMaps.map (fun m => (m.UserID, m.GroupID)) := by
    unfold updateUserGroupMap
    simp only [List.map_map]
    apply List.map_congr_left
    intro m _
    simp only [Function.comp]
    split
    · rw [(hkeep m).1, (hkeep m).2]
    · rfl
  rw [hsame]
  exact h

/-- The group insert leaves table `UserGroupMap` alone. -/
theorem insertGroup_userGroupMaps (s : Store) (model : Group) (assigned : Int)
    (res : Store × Group) (hres : insertGroup s model assigned = some res) :
    res.1.userGroupMaps = s.userGroupMaps := by
  unfold insertGroup at hres
  split at hres
  · exact absurd hres (by simp)
  · simp only [Option.some.injEq] at hres
    rw [← hres]

/-- `Group.Add` keeps the pairs unique, whatever becomes of its second statement. -/
theorem Group.AddAt_pairsUnique (failed : Bool) (s : Store) (model : Group) (assigned : Int)
    (h : pairsUnique s) : pairsUnique (Group.AddAt failed s model assigned).1 := by
  unfold Group.AddAt
  split
  · exact h
  · rename_i inserted hins
    have h1 : pairsUnique inserted.1 :=
      pairsUnique_of_same_rows s _ (insertGroup_userGroupMaps s model assigned inserted hins) h
    simp only []
    split
    · exact h1
    · rename_i res hres
      have h2 := insertUserGroupMap_pairsUnique _ _ failed res h1 hres
      split <;> exact h2

/-- C24. The invariant that table `UserGroupMap` holds at most one row per pair
`(UserID, GroupID)` is kept by every operation that writes memberships:
`Group.Add`, `UserGroupMap.Add`, `UserGroupMap.UpgradeToGroupLead` and
`UserGroupMap.ApproveOrReject`. -/
theorem pairsUnique_preserved (s : Store) (h : pairsUnique s) :
    (∀ (model : Group) (assigned : Int), pairsUnique (Group.Add s model assigned).1) ∧
    (∀ (model : UserGroupMap) (userID : Int), pairsUnique (UserGroupMap.Add s model userID).1) ∧
    (∀ receiver : Option UserGroupMap,
      pairsUnique (UserGroupMap.UpgradeToGroupLead s receiver).1) ∧
    (∀ (model : UserGroupMap) (approve : Bool),
      pairsUnique (UserGroupMap.ApproveOrReject s model approve).1) := by
  refine ⟨?_, ?_, ?_, ?_⟩
  · intro model assigned
    exact Group.AddAt_pairsUnique false s model assigned h
  · intro model userID
    unfold UserGroupMap.Add
    split
    · exact h
    · split
      · exact h
      · split
        · exact h
        · rename_i res hres
          have h2 := insertUserGroupMap_pairsUnique _ _ false res h hres
          split <;> exact h2
  · intro receiver
    unfold UserGroupMap.UpgradeToGroupLead
    split
    · exact h
    · split
      · exact h
      · have h2 := fun (u g : Int) => updateUserGroupMap_pairsUnique s u g (fun m =>
          { m with WorkflowStatus := WorkflowStatus.WorkflowStatusPending.GetStatusID
                   IsLeader := true }) (fun _ => ⟨rfl, rfl⟩) h
        simp only []
        split <;> exact h2 _ _
  · intro model approve
    unfold UserGroupMap.ApproveOrReject
    split
    · exact h
    · split
      · exact h
      · split
        · have h2 := updateUserGroupMap_pairsUnique s model.UserID model.GroupID (fun m =>
            { m with WorkflowStatus := WorkflowStatus.WorkflowStatusApproved.GetStatusID })
            (fun _ => ⟨rfl, rfl⟩) h
          simp only []
          split <;> exact h2
        · split
          · exact h
          · split
            · have h2 := updateUserGroupMap_pairsUnique s model.UserID model.GroupID (fun m =>
                { m with WorkflowStatus := WorkflowStatus.WorkflowStatusApproved.GetStatusID
                         IsLeader := false }) (fun _ => ⟨rfl, rfl⟩) h
              simp only []
              split <;> exact h2
            · exact h

/-- C24 at `workflowStore`: the pairs are unique, and still are after the leader
tried to add user 3, who is already a member. -/
theorem pairsUnique_preserved_witness :
    pairsUnique workflowStore ∧
    pairsUnique (UserGroupMap.Add workflowStore { UserID := 3, GroupID := 3 } 2).1 :=
  ⟨by unfold pairsUnique; decide,
    (pairsUnique_preserved workflowStore (by unfold pairsUnique; decide)).2.1
      { UserID := 3, GroupID := 3 } 2⟩

set_option exponentiation.threshold 2000 in
set_option maxRecDepth 8000 in
/-- C28. A failing store operation is reported together with a success message.
In `workflowStore` the administrator approves group 9, user 9 and the membership
of user 2 in group 9, none of which exists: each `ApproveOrReject` returns an
error and leaves the store as it was, and each handler sets the flash error and
then the flash success message as well. -/
theorem failed_disposition_reports_success :
    (Group.ApproveOrReject workflowStore { GroupID := 9 } true).2 = some unableToPerform ∧
    (Requests.HandleGroup workflowStore adminRequest "9" "true").1 = workflowStore ∧
    getKey (Requests.HandleGroup workflowStore adminRequest "9" "true").2.1.flashOut "error"
      = "Unable to add group at the moment. Please try after sometime." ∧
    getKey (Requests.HandleGroup workflowStore adminRequest "9" "true").2.1.flashOut "success"
      = "Group approved" ∧
    (User.ApproveOrReject workflowStore { UserID := 9 } false).2 = some unableToPerform ∧
    (getKey (Requests.HandleUser workflowStore adminRequest "9" "false").2.1.flashOut "error"
      ≠ "") ∧
    getKey (Requests.HandleUser workflowStore adminRequest "9" "false").2.1.flashOut "success"
      = "User request rejected" ∧
    (UserGroupMap.ApproveOrReject workflowStore { UserID := 2, GroupID := 9 } true).2
      = some "Unable to fetch the group details at the moment" ∧
    (getKey (Requests.HandleGroupAccess workflowStore adminRequest "9" "2" "true").2.1.flashOut
      "error" ≠ "") ∧
    getKey (Requests.HandleGroupAccess workflowStore adminRequest "9" "2" "true").2.1.flashOut
      "success" = "Group access request approved" := by
  decide

/-- C29. `Group.Add` is not atomic.  When the insert of the group row goes through
(the key and the name are new) and the insert of the creator's membership row
fails (`failed`, the statement did not reach the database or was refused) or
affects no row (the pair is already in the table), `Group.Add` returns the error
"Unable to process the request", the new row stays in `Groups` and table
`UserGroupMap` is as it was: if no membership row referred to the new group before,
the group has no membership row, hence no leader. -/
theorem Group.Add_not_atomic (failed : Bool) (s : Store) (model : Group) (assigned : Int)
    (hname : ∀ g ∈ s.groups, g.GroupName ≠ (Group.insertedRow model assigned).GroupName)
    (hkey : ∀ g ∈ s.groups, g.GroupID ≠ (Group.insertedRow model assigned).GroupID)
    (hfail : failed = true ∨ ∃ m ∈ s.userGroupMaps,
      m.UserID = (Group.insertedRow model assigned).CreatedBy ∧
        m.GroupID = (Group.insertedRow model assigned).GroupID) :
    (Group.AddAt failed s model assigned).2.2 = some unableToProcess ∧
    (Group.AddAt failed s model assigned).1
      = { s with groups := s.groups ++ [Group.insertedRow model assigned] } ∧
    (Group.AddAt failed s model assigned).1.userGroupMaps = s.userGroupMaps ∧
    ((∀ m ∈ s.userGroupMaps, m.GroupID ≠ (Group.insertedRow model assigned).GroupID) →
      ∀ m ∈ (Group.AddAt failed s model assigned).1.userGroupMaps,
        m.GroupID ≠ (Group.insertedRow model assigned).GroupID) := by
  have hins := insertGroup_fresh s model assigned hname hkey
  have hall : (Group.AddAt failed s model assigned).2.2 = some unableToProcess ∧
      (Group.AddAt failed s model assigned).1
        = { s with groups := s.groups ++ [Group.insertedRow model assigned] } := by
    unfold Group.AddAt
    rw [hins]
    dsimp only
    cases failed with
    | true =>
      unfold insertUserGroupMap
      rw [if_pos rfl]
      exact ⟨rfl, rfl⟩
    | false =>
      rcases hfail with hf | ⟨m, hm, h1, h2⟩
      · exact absurd hf Bool.false_ne_true
      · unfold insertUserGroupMap
        rw [if_neg Bool.false_ne_true, if_pos]
        · exact ⟨rfl, rfl⟩
        · simp only [List.any_eq_true, Bool.and_eq_true, beq_iff_eq]
          exact ⟨m, hm, h1, h2⟩
  have hmaps : (Group.AddAt failed s model assigned).1.userGroupMaps = s.userGroupMaps := by
    rw [hall.2]
  refine ⟨hall.1, hall.2, hmaps, ?_⟩
  intro hnone m hm
  rw [hmaps] at hm
  exact hnone m hm

set_option exponentiation.threshold 2000 in
set_option maxRecDepth 8000 in
/-- C29 at `workflowStore`: user 2 creates the group "New", which gets the key 9, and
the membership insert fails: the error is returned, group 9 is in `Groups` and no
membership row refers to it. -/
theorem Group.Add_not_atomic_witness :
    (Group.AddAt true workflowStore { GroupName := "New", CreatedBy := 2 } 9).2.2
      = some "Unable to process the request" ∧
    (Group.AddAt true workflowStore { GroupName := "New", CreatedBy := 2 } 9).1.groups
      = workflowStore.groups ++ [{ GroupID := 9, GroupName := "New", CreatedBy := 2 }] ∧
    (∀ m ∈ (Group.AddAt true workflowStore { GroupName := "New", CreatedBy := 2 }
        9).1.userGroupMaps, m.GroupID ≠ 9) :=
  have h := Group.Add_not_atomic true workflowStore { GroupName := "New", CreatedBy := 2 } 9
    (by decide) (by decide) (Or.inl rfl)
  ⟨h.1, by rw [h.2.1]; rfl, h.2.2.2 (by decide)⟩

/-- C25. `Item.Delete` of the controllers, called for an existing item by an
identified user who is neither the creator of the item nor an administrator,
changes neither the store (the row and its `Uploaded` flag stay) nor the files,
sets the flash error "Unauthorized. You do not have enough permissions to delete
the item." and redirects to `Home.Index`. -/
theorem Delete_unauthorized (s : Store) (fs : FileSystem) (c : Controller) (itemID : String)
    (user : User) (itemMeta : Item)
    (hcaller : (ParseInt (getKey c.flashOut "userID")).2 = false)
    (hid : (ParseInt itemID).2 = false)
    (huser : GetUserByUserID s (ParseInt (getKey c.flashOut "userID")).1 = some user)
    (hitem : GetItemDetailsByID s (ParseInt itemID).1 = some itemMeta)
    (hother : itemMeta.CreatedBy ≠ (ParseInt (getKey c.flashOut "userID")).1)
    (hplain : user.IsAdmin = false) :
    Controllers.Item.Delete s fs c itemID
      = (s, fs,
          c.keepLoggedInUser.flashError
            "Unauthorized. You do not have enough permissions to delete the item.",
          Result.Redirect Action.HomeIndex) ∧
    GetItemDetailsByID (Controllers.Item.Delete s fs c itemID).1 (ParseInt itemID).1
      = some itemMeta ∧
    getKey (Controllers.Item.Delete s fs c itemID).2.2.1.flashOut "error"
      = "Unauthorized. You do not have enough permissions to delete the item." := by
  have hres : Controllers.Item.Delete s fs c itemID
      = (s, fs,
          c.keepLoggedInUser.flashError
            "Unauthorized. You do not have enough permissions to delete the item.",
          Result.Redirect Action.HomeIndex) := by
    unfold Controllers.Item.Delete
    simp only [hcaller, hid, huser, hitem, hplain, Bool.false_eq_true, if_false]
    rw [if_pos]
    simp only [Bool.not_false, Bool.and_true, bne_iff_ne, ne_eq]
    exact hother
  refine ⟨hres, ?_, ?_⟩
  · rw [hres]
    exact hitem
  · rw [hres]
    exact getKey_setKey _ _ _

set_option maxRecDepth 8000 in
/-- C25 at `uploadsStore`: user 3 asks for the deletion of item 5 of user 2. -/
theorem Delete_unauthorized_witness :
    Controllers.Item.Delete uploadsStore uploadsFiles otherUserRequest "5"
      = (uploadsStore, uploadsFiles,
          otherUserRequest.keepLoggedInUser.flashError
            "Unauthorized. You do not have enough permissions to delete the item.",
          Result.Redirect Action.HomeIndex) :=
  (Delete_unauthorized uploadsStore uploadsFiles otherUserRequest "5"
    { UserID := 3, FirstName := "Cy", WorkflowStatus := 1 }
    { ItemID := 5, ItemName := "pic", ItemTypeID := 1, ItemSize := 3, GroupID := 3,
      Uploaded := true, ItemPath := "/uploads/ab12", CreatedBy := 2 }
    (by decide) (by decide) (by decide) (by decide) (by decide) (by decide)).1

/-- The row found by `GetItemDetailsByID` is a row of `Items` with the key asked for. -/
theorem GetItemDetailsByID_found (s : Store) (itemID : Int) (itemMeta : Item)
    (hitem : GetItemDetailsByID s itemID = some itemMeta) :
    itemMeta ∈ s.items ∧ itemMeta.ItemID = itemID := by
  unfold GetItemDetailsByID at hitem
  have hp := List.find?_some hitem
  exact ⟨List.mem_of_find?_eq_some hitem, by simpa using hp⟩

/-- `MarkItemAsDeleting` on the key of an existing row. -/
theorem MarkItemAsDeleting_existing (s : Store) (itemID : Int) (itemMeta : Item)
    (hitem : GetItemDetailsByID s itemID = some itemMeta) :
    MarkItemAsDeleting s itemID
      = ({ s with items := s.items.map (fun i =>
            if i.ItemID == itemID then { i with Uploaded := false } else i) }, none) := by
  have hfound := GetItemDetailsByID_found s itemID itemMeta hitem
  have hrows := filter_length_of_mem s.items (fun i => i.ItemID == itemID) itemMeta hfound.1
    (by simp [hfound.2])
  unfold MarkItemAsDeleting
  simp only [hrows, if_false]

/-- C26. An authorised deletion (by the creator or an administrator) of an existing
item whose file cannot be removed: the controller stops after `MarkItemAsDeleting`,
so the row is still in `Items`, now with `uploaded = false`, no row was deleted, the
files are as they were and the flash error is "Unable to delete the item at the
moment". -/
theorem Delete_keeps_row_when_remove_fails (s : Store) (fs : FileSystem) (c : Controller)
    (itemID : String) (user : User) (itemMeta : Item)
    (hcaller : (ParseInt (getKey c.flashOut "userID")).2 = false)
    (hid : (ParseInt itemID).2 = false)
    (huser : GetUserByUserID s (ParseInt (getKey c.flashOut "userID")).1 = some user)
    (hitem : GetItemDetailsByID s (ParseInt itemID).1 = some itemMeta)
    (hauth : itemMeta.CreatedBy = (ParseInt (getKey c.flashOut "userID")).1
      ∨ user.IsAdmin = true)
    (hremove : fs.Remove ("./" ++ itemMeta.ItemPath) = none) :
    Controllers.Item.Delete s fs c itemID
      = ({ s with items := s.items.map (fun i =>
            if i.ItemID == (ParseInt itemID).1 then { i with Uploaded := false } else i) },
          fs, c.keepLoggedInUser.flashError "Unable to delete the item at the moment",
          Result.Redirect Action.HomeIndex) ∧
    GetItemDetailsByID (Controllers.Item.Delete s fs c itemID).1 (ParseInt itemID).1
      = some { itemMeta with Uploaded := false } ∧
    (Controllers.Item.Delete s fs c itemID).1.items.length = s.items.length := by
  have hfound := GetItemDetailsByID_found s _ itemMeta hitem
  have hmark := MarkItemAsDeleting_existing s _ itemMeta hitem
  have hres : Controllers.Item.Delete s fs c itemID
      = ({ s with items := s.items.map (fun i =>
            if i.ItemID == (ParseInt itemID).1 then { i with Uploaded := false } else i) },
          fs, c.keepLoggedInUser.flashError "Unable to delete the item at the moment",
          Result.Redirect Action.HomeIndex) := by
    unfold Controllers.Item.Delete
    simp only [hcaller, hid, huser, hitem, Bool.false_eq_true, if_false]
    rw [if_neg]
    · rw [hfound.2, hmark]
      simp only [hremove]
    · rcases hauth with h | h
      · simp [h]
      · simp [h]
  refine ⟨hres, ?_, ?_⟩
  · rw [hres]
    unfold GetItemDetailsByID at hitem ⊢
    dsimp only
    rw [find?_map_of_keep s.items (fun i => i.ItemID == (ParseInt itemID).1)
      (fun i => if i.ItemID == (ParseInt itemID).1 then { i with Uploaded := false } else i)
      (by intro a; dsimp only; split <;> rfl), hitem]
    simp only [Option.map_some']
    rw [if_pos (by simp [hfound.2])]
  · rw [hres]
    simp only [List.length_map]

set_option maxRecDepth 8000 in
/-- C26 at `uploadsStore` with no file under `./uploads`: user 2 deletes their item
5; the row stays, with `Uploaded = false`. -/
theorem Delete_keeps_row_when_remove_fails_witness :
    GetItemDetailsByID (Controllers.Item.Delete uploadsStore {} plainUserRequest "5").1 5
      = some { ItemID := 5, ItemName := "pic", ItemTypeID := 1, ItemSize := 3, GroupID := 3,
               Uploaded := false, ItemPath := "/uploads/ab12", CreatedBy := 2 } :=
  (Delete_keeps_row_when_remove_fails uploadsStore {} plainUserRequest "5"
    { UserID := 2, FirstName := "Bea", WorkflowStatus := 1 }
    { ItemID := 5, ItemName := "pic", ItemTypeID := 1, ItemSize := 3, GroupID := 3,
      Uploaded := true, ItemPath := "/uploads/ab12", CreatedBy := 2 }
    (by decide) (by decide) (by decide) (by decide) (Or.inl (by decide)) (by decide)).2.1

/-- The stored path is the write path without its first character only: the slash
stays. -/
theorem uploadItemPath_uploadFilePath (fileNameHashed : String) :
    uploadItemPath (uploadFilePath fileNameHashed) = "/uploads/" ++ fileNameHashed := by
  unfold uploadItemPath uploadFilePath
  apply String.ext
  simp only [String.data_append]
  rfl

/-- Prefixed with `./`, as the deletion does, the stored path names the file that was
written. -/
theorem resolve_stored_path (fileNameHashed : String) :
    resolve ("./" ++ uploadItemPath (uploadFilePath fileNameHashed))
      = resolve (uploadFilePath fileNameHashed) := by
  rw [uploadItemPath_uploadFilePath]
  unfold resolve uploadFilePath
  simp only [String.data_append]
  simp only [List.cons_append, List.nil_append]
  generalize ('u' :: 'p' :: 'l' :: 'o' :: 'a' :: 'd' :: 's' :: '/' :: fileNameHashed.data) = rest
  have hsplit1 : splitChars '/' ('.' :: '/' :: '/' :: rest)
      = ['.'] :: [] :: splitChars '/' rest := by
    simp [splitChars]
  have hsplit2 : splitChars '/' ('.' :: '/' :: rest) = ['.'] :: splitChars '/' rest := by
    simp [splitChars]
  rw [hsplit1, hsplit2]
  simp only [List.map_cons]
  have hdot : (String.mk ['.'] != "" && String.mk ['.'] != ".") = false := by decide
  have hempty : (String.mk [] != "" && String.mk [] != ".") = false := by decide
  rw [List.filter_cons_of_neg (by rw [hdot]; decide),
    List.filter_cons_of_neg (by rw [hempty]; decide),
    List.filter_cons_of_neg (by rw [hdot]; decide)]

/-- The row sent by `Item.Add` keeps the path of the model. -/
theorem Item.insertedRow_ItemPath (model : Item) (assigned : Int) :
    (Item.insertedRow model assigned).ItemPath = model.ItemPath := by
  unfold Item.insertedRow
  split <;> rfl

/-- A successful `Item.Add` appended the row it sent. -/
theorem Item.Add_appended (s : Store) (model : Item) (assigned : Int)
    (hadded : (Item.Add s model assigned).2 = none) :
    (Item.Add s model assigned).1
      = { s with items := s.items ++ [Item.insertedRow model assigned] } := by
  unfold Item.Add at hadded ⊢
  split
  · rename_i hany
    rw [if_pos hany] at hadded
    exact absurd hadded (by simp)
  · rfl

/-- `MarkItemAsUploaded` on the key of an existing row. -/
theorem MarkItemAsUploaded_existing (s : Store) (itemID : Int)
    (hex : ∃ i ∈ s.items, i.ItemID = itemID) :
    MarkItemAsUploaded s itemID
      = ({ s with items := s.items.map (fun i =>
            if i.ItemID == itemID then { i with Uploaded := true } else i) }, none) := by
  obtain ⟨i, hi, hk⟩ := hex
  have hrows := filter_length_of_mem s.items (fun i => i.ItemID == itemID) i hi (by simp [hk])
  unfold MarkItemAsUploaded
  simp only [hrows, if_false]

set_option maxRecDepth 8000 in
set_option exponentiation.threshold 2000 in
/-- C27, as stated, fails: the file `a.jpg` uploaded at Unix time 1700000000 by user
1 of `roomyStore` is written to `./uploads/627d...e954` and its row carries the path
`/uploads/627d...e954`, with the slash, not `uploads/627d...e954`. -/
theorem stored_path_keeps_slash :
    uploadFilePath (hashedName sampleDigest "a.jpg" 1700000000)
      = "./uploads/627dbd50a3fdcfc60fcbbefece31230f7a511e6a49055e875ea78dcd1715e954" ∧
    (GetItemDetailsByID
        (Controllers.Item.UploadHandler roomyStore {} uploaderRequest sampleDigest 1700000000 2
          [1, 2, 3] "1" "d" "pic1" sampleFile).1 2).map (fun i => i.ItemPath)
      = some "/uploads/627dbd50a3fdcfc60fcbbefece31230f7a511e6a49055e875ea78dcd1715e954" ∧
    (GetItemDetailsByID
        (Controllers.Item.UploadHandler roomyStore {} uploaderRequest sampleDigest 1700000000 2
          [1, 2, 3] "1" "d" "pic1" sampleFile).1 2).map (fun i => i.ItemPath)
      ≠ some "uploads/627dbd50a3fdcfc60fcbbefece31230f7a511e6a49055e875ea78dcd1715e954" := by
  decide

/-- The row sent by `Item.Add` keeps the flag of the model. -/
theorem Item.insertedRow_Uploaded (model : Item) (assigned : Int) :
    (Item.insertedRow model assigned).Uploaded = model.Uploaded := by
  unfold Item.insertedRow
  split <;> rfl

/-- C27, amended. For every upload the model handed to `Item.Add` carries the path
`/uploads/<hash>`: the write path `./uploads/<hash>` without its leading `.`, the
slash kept, `<hash>` being the digest of the file name followed by the Unix time in
decimal.  For every upload that reaches `Item.Add` and whose row is inserted,
whether or not the bytes are then read and written, the store afterwards holds the
row of the item with that path; the row is marked uploaded exactly when the bytes
were read and written, in which case the file `./uploads/<hash>` holds them; and
the stored path prefixed with `./`, as the deletion builds it, names that file. -/
theorem UploadHandler_stores_rooted_path (s : Store) (fs : FileSystem) (c : Controller)
    (digest : String → String) (now : Int) (assigned : Int)
    (uploadedFile : List Nat) (group description name : String) (file : UploadedFile)
    (hvalid : uploadValid uploadedFile group description name = true)
    (hgroup : (ParseInt group).2 = false)
    (htype : (GetItemType file.Filename).2.2 = none)
    (hopens : file.opens = true)
    (hlimits : (CheckLimits s
      (some (uploadModel digest now c group description name file))).err = none)
    (hadded : (Item.Add s (uploadModel digest now c group description name file) assigned).2
      = none) :
    (uploadModel digest now c group description name file).ItemPath
      = "/uploads/" ++ digest (file.Filename ++ toString now) ∧
    (∃ row ∈ (Controllers.Item.UploadHandler s fs c digest now assigned uploadedFile group
        description name file).1.items,
      row.ItemID
          = (Item.insertedRow (uploadModel digest now c group description name file)
              assigned).ItemID ∧
        row.ItemPath = "/uploads/" ++ digest (file.Filename ++ toString now) ∧
        (row.Uploaded = true ↔ (file.reads = true ∧ fs.readOnly = false))) ∧
    (file.reads = true → fs.readOnly = false →
      (resolve ("./uploads/" ++ digest (file.Filename ++ toString now)), file.content)
        ∈ (Controllers.Item.UploadHandler s fs c digest now assigned uploadedFile group
            description name file).2.1.files ∧
      getKey (Controllers.Item.UploadHandler s fs c digest now assigned uploadedFile group
          description name file).2.2.1.flashOut "success"
        = "Successfully uploaded the file") ∧
    resolve ("./" ++ ("/uploads/" ++ digest (file.Filename ++ toString now)))
      = resolve ("./uploads/" ++ digest (file.Filename ++ toString now)) := by
  have happ := Item.Add_appended s _ assigned hadded
  have hmark := MarkItemAsUploaded_existing
    (Item.Add s (uploadModel digest now c group description name file) assigned).1
    (Item.insertedRow (uploadModel digest now c group description name file) assigned).ItemID
    ⟨Item.insertedRow (uploadModel digest now c group description name file) assigned,
      by rw [happ]; simp, rfl⟩
  have hpath := uploadItemPath_uploadFilePath (hashedName digest file.Filename now)
  have hmodel : (uploadModel digest now c group description name file).ItemPath
      = "/uploads/" ++ digest (file.Filename ++ toString now) := hpath
  have hsame := resolve_stored_path (hashedName digest file.Filename now)
  rw [hpath] at hsame
  unfold uploadFilePath hashedName at hsame
  have hstays : Item.insertedRow (uploadModel digest now c group description name file)
      assigned ∈ (Item.Add s (uploadModel digest now c group description name file)
        assigned).1.items := by
    rw [happ]
    simp
  have hrowpath : (Item.insertedRow (uploadModel digest now c group description name file)
      assigned).ItemPath = "/uploads/" ++ digest (file.Filename ++ toString now) := by
    rw [Item.insertedRow_ItemPath]
    exact hmodel
  have hrowflag : (Item.insertedRow (uploadModel digest now c group description name file)
      assigned).Uploaded = false := by
    rw [Item.insertedRow_Uploaded]
    rfl
  by_cases hreads : file.reads = true
  · by_cases hwritable : fs.readOnly = false
    · have hres : Controllers.Item.UploadHandler s fs c digest now assigned uploadedFile group
          description name file
          = ((MarkItemAsUploaded
                (Item.Add s (uploadModel digest now c group description name file) assigned).1
                (Item.insertedRow (uploadModel digest now c group description name file)
                  assigned).ItemID).1,
              FileSystem.mk
                ((resolve (uploadFilePath (hashedName digest file.Filename now)),
                    file.content) ::
                  fs.files.filter (fun f =>
                    f.1 != resolve (uploadFilePath (hashedName digest file.Filename now))))
                fs.readOnly,
              c.keepLoggedInUser.flashSuccess "Successfully uploaded the file",
              Result.Redirect Action.ItemUpload) := by
        unfold Controllers.Item.UploadHandler FileSystem.WriteFile
        simp only [hvalid, hgroup, htype, hopens, hlimits, hadded, hreads, hwritable,
          Bool.not_true, Bool.false_eq_true, if_false]
        rw [hmark]
      refine ⟨hmodel, ?_, ?_, hsame⟩
      · rw [hres, hmark, happ]
        refine ⟨{ Item.insertedRow (uploadModel digest now c group description name file)
            assigned with Uploaded := true }, ?_, rfl, hrowpath, ?_⟩
        · simp only [List.map_append, List.map_cons, List.map_nil, List.mem_append,
            List.mem_singleton]
          right
          rw [if_pos (by simp)]
        · exact ⟨fun _ => ⟨hreads, hwritable⟩, fun _ => rfl⟩
      · intro _ _
        rw [hres]
        exact ⟨List.mem_cons_self _ _, getKey_setKey _ _ _⟩
    · have hro : fs.readOnly = true := by
        cases h : fs.readOnly
        · exact absurd h hwritable
        · rfl
      have hres : (Controllers.Item.UploadHandler s fs c digest now assigned uploadedFile group
          description name file).1
          = (Item.Add s (uploadModel digest now c group description name file) assigned).1 := by
        unfold Controllers.Item.UploadHandler FileSystem.WriteFile
        simp only [hvalid, hgroup, htype, hopens, hlimits, hadded, hreads, hro,
          Bool.not_true, Bool.false_eq_true, if_false, if_true]
      refine ⟨hmodel, ?_, ?_, hsame⟩
      · rw [hres]
        refine ⟨_, hstays, rfl, hrowpath, ?_⟩
        rw [hrowflag]
        exact ⟨fun h => absurd h Bool.false_ne_true, fun h => absurd h.2 hwritable⟩
      · intro _ hw
        exact absurd hw hwritable
  · have hnr : file.reads = false := by
      cases h : file.reads
      · rfl
      · exact absurd h hreads
    have hres : (Controllers.Item.UploadHandler s fs c digest now assigned uploadedFile group
        description name file).1
        = (Item.Add s (uploadModel digest now c group description name file) assigned).1 := by
      unfold Controllers.Item.UploadHandler
      simp only [hvalid, hgroup, htype, hopens, hlimits, hadded, hnr,
        Bool.not_true, Bool.not_false, Bool.false_eq_true, if_false, if_true]
    refine ⟨hmodel, ?_, ?_, hsame⟩
    · rw [hres]
      refine ⟨_, hstays, rfl, hrowpath, ?_⟩
      rw [hrowflag]
      exact ⟨fun h => absurd h Bool.false_ne_true, fun h => absurd h.1 hreads⟩
    · intro hr _
      exact absurd hr hreads

set_option maxRecDepth 8000 in
set_option exponentiation.threshold 2000 in
/-- C27, amended, at the upload of `a.jpg` at Unix time 1700000000 into group 1 of
`roomyStore` by user 1, the bytes of which cannot be read: the row stays, with the
path `/uploads/627d...e954`. -/
theorem UploadHandler_stores_rooted_path_witness :
    ∃ row ∈ (Controllers.Item.UploadHandler roomyStore {} uploaderRequest sampleDigest
        1700000000 2 [1, 2, 3] "1" "d" "pic1" { sampleFile with reads := false }).1.items,
      row.ItemID
          = (Item.insertedRow (uploadModel sampleDigest 1700000000 uploaderRequest "1" "d"
              "pic1" { sampleFile with reads := false }) 2).ItemID ∧
        row.ItemPath = "/uploads/" ++ sampleDigest ("a.jpg" ++ toString (1700000000 : Int)) ∧
        (row.Uploaded = true ↔
          (({ sampleFile with reads := false } : UploadedFile).reads = true
            ∧ ({} : FileSystem).readOnly = false)) :=
  (UploadHandler_stores_rooted_path roomyStore {} uploaderRequest sampleDigest 1700000000 2
    [1, 2, 3] "1" "d" "pic1" { sampleFile with reads := false }
    (by decide) (by decide) (by decide) (by decide) (by decide) (by decide)).2.1

/-- A number is below two to the number of its binary digits. -/
theorem F32.lt_two_pow_bitLengthAux (fuel N : Nat) (h : N ≤ fuel) :
    N < 2 ^ F32.bitLengthAux fuel N := by
  induction fuel generalizing N with
  | zero =>
    have : N = 0 := by omega
    subst this
    simp [F32.bitLengthAux]
  | succ fuel ih =>
    by_cases hN : N = 0
    · subst hN
      simp [F32.bitLengthAux]
    · simp only [F32.bitLengthAux, hN, if_false, pow_succ]
      have := ih (N / 2) (by omega)
      omega

/-- The number of binary digits is monotone. -/
theorem F32.bitLength_mono (N N' : Nat) (h : N ≤ N') : F32.bitLength N ≤ F32.bitLength N' := by
  by_cases hN : N = 0
  · subst hN
    simp [F32.bitLength, F32.bitLengthAux]
  · have hpos : 0 < N := Nat.pos_of_ne_zero hN
    have h1 : 2 ^ F32.bitLength N ≤ 2 * N := F32.two_pow_bitLengthAux_le N N hpos
    have h2 : N' < 2 ^ F32.bitLength N' := F32.lt_two_pow_bitLengthAux N' N' (le_refl _)
    have h3 : 2 ^ F32.bitLength N < 2 ^ (F32.bitLength N' + 1) := by
      rw [pow_succ]
      omega
    have h4 := (Nat.pow_lt_pow_iff_right (by norm_num : 1 < 2)).mp h3
    omega

/-- Rounding to the binary32 grid is monotone. -/
theorem F32.roundUnits_mono (N N' k : Nat) (h : N ≤ N') :
    F32.roundUnits N k ≤ F32.roundUnits N' k := by
  have hb := F32.bitLength_mono N N' h
  unfold F32.roundUnits
  simp only []
  generalize hs : max k (F32.bitLength N - 24) = s
  generalize hs' : max k (F32.bitLength N' - 24) = s'
  have hss : s ≤ s' := by omega
  have hks : k ≤ s := by omega
  rcases Nat.eq_or_lt_of_le hss with heq | hlt
  · subst heq
    apply Nat.mul_le_mul_right
    have hq : N / 2 ^ s ≤ N' / 2 ^ s := Nat.div_le_div_right h
    have hpos : 0 < 2 ^ s := by positivity
    have hN := Nat.div_add_mod N (2 ^ s)
    have hN' := Nat.div_add_mod N' (2 ^ s)
    generalize N / 2 ^ s = q at *
    generalize N' / 2 ^ s = q' at *
    generalize N % 2 ^ s = r at *
    generalize N' % 2 ^ s = r' at *
    generalize 2 ^ s = P at *
    rcases Nat.eq_or_lt_of_le hq with hqe | hql
    · subst hqe
      have hr : r ≤ r' := by omega
      split <;> split <;> omega
    · split <;> split <;> omega
  · have hs'eq : s' = F32.bitLength N' - 24 := by omega
    have hb' : F32.bitLength N' = s' + 24 := by omega
    have hN'pos : 0 < N' := by
      rcases Nat.eq_zero_or_pos N' with h0 | h0
      · subst h0
        simp [F32.bitLength, F32.bitLengthAux] at hb'
      · exact h0
    have hlow : 2 ^ (s' + 23) ≤ N' := by
      have h1 : 2 ^ F32.bitLength N' ≤ 2 * N' := F32.two_pow_bitLengthAux_le N' N' hN'pos
      rw [hb', show s' + 24 = (s' + 23) + 1 from rfl, pow_succ] at h1
      omega
    have hhigh : N < 2 ^ (s' + 23) := by
      have h2 : N < 2 ^ F32.bitLength N := F32.lt_two_pow_bitLengthAux N N (le_refl _)
      have h3 : 2 ^ F32.bitLength N ≤ 2 ^ (s' + 23) :=
        Nat.pow_le_pow_right (by norm_num) (by omega)
      omega
    have hmid1 : (if 2 ^ s < 2 * (N % 2 ^ s) ∨ (2 * (N % 2 ^ s) = 2 ^ s ∧ N / 2 ^ s % 2 = 1)
        then N / 2 ^ s + 1 else N / 2 ^ s) * 2 ^ (s - k) ≤ 2 ^ (s' + 23 - k) := by
      have hq : N / 2 ^ s < 2 ^ (s' + 23 - s) := by
        rw [Nat.div_lt_iff_lt_mul (by positivity), ← pow_add]
        rw [show s' + 23 - s + s = s' + 23 by omega]
        exact hhigh
      have hq1 : (if 2 ^ s < 2 * (N % 2 ^ s) ∨ (2 * (N % 2 ^ s) = 2 ^ s ∧ N / 2 ^ s % 2 = 1)
          then N / 2 ^ s + 1 else N / 2 ^ s) ≤ 2 ^ (s' + 23 - s) := by
        split <;> omega
      calc _ ≤ 2 ^ (s' + 23 - s) * 2 ^ (s - k) := Nat.mul_le_mul_right _ hq1
        _ = 2 ^ (s' + 23 - k) := by
          rw [← pow_add]
          congr 1
          omega
    have hmid2 : 2 ^ (s' + 23 - k) ≤
        (if 2 ^ s' < 2 * (N' % 2 ^ s') ∨ (2 * (N' % 2 ^ s') = 2 ^ s' ∧ N' / 2 ^ s' % 2 = 1)
        then N' / 2 ^ s' + 1 else N' / 2 ^ s') * 2 ^ (s' - k) := by
      have hq : 2 ^ 23 ≤ N' / 2 ^ s' := by
        rw [Nat.le_div_iff_mul_le (by positivity), ← pow_add]
        rw [show 23 + s' = s' + 23 by omega]
        exact hlow
      have hq1 : 2 ^ 23 ≤ (if 2 ^ s' < 2 * (N' % 2 ^ s') ∨
          (2 * (N' % 2 ^ s') = 2 ^ s' ∧ N' / 2 ^ s' % 2 = 1)
          then N' / 2 ^ s' + 1 else N' / 2 ^ s') := by
        split <;> omega
      calc 2 ^ (s' + 23 - k) = 2 ^ 23 * 2 ^ (s' - k) := by
            rw [← pow_add]
            congr 1
            omega
        _ ≤ _ := Nat.mul_le_mul_right _ hq1
    exact le_trans hmid1 hmid2

/-- Rounding never gives NaN. -/
theorem F32.round_ne_nan (negative : Bool) (N k : Nat) : F32.round negative N k ≠ F32.nan := by
  unfold F32.round
  simp only []
  split <;> simp

/-- Rounding of non-negative magnitudes is monotone. -/
theorem F32.round_mono (N N' k : Nat) (h : N ≤ N') :
    F32.lt (F32.round false N' k) (F32.round false N k) = false := by
  have hu := F32.roundUnits_mono N N' k h
  unfold F32.round
  simp only [Bool.false_eq_true, if_false]
  split <;> split <;> simp [F32.lt] <;> omega

/-- Rounding of signed integers is monotone. -/
theorem F32.round_signed_mono (i i' : Int) (h : i' ≤ i) :
    F32.lt (F32.round (decide (i < 0)) i.natAbs 0) (F32.round (decide (i' < 0)) i'.natAbs 0)
      = false := by
  by_cases hi : i < 0
  · have hi' : i' < 0 := by omega
    have hu := F32.roundUnits_mono i.natAbs i'.natAbs 0 (by omega)
    unfold F32.round
    simp only [hi, hi', decide_True, if_true]
    split <;> split <;> simp [F32.lt] <;> omega
  · by_cases hi' : i' < 0
    · unfold F32.round
      simp only [hi, hi', decide_True, decide_False, if_true, Bool.false_eq_true, if_false]
      split <;> split <;> simp [F32.lt] <;> omega
    · have hu := F32.roundUnits_mono i'.natAbs i.natAbs 0 (by omega)
      unfold F32.round
      simp only [hi, hi', decide_False, Bool.false_eq_true, if_false]
      split <;> split <;> simp [F32.lt] <;> omega

/-- If `x' ≤ x` and `x < l` then `x' < l`. -/
theorem F32.lt_of_le_of_lt (x x' l : F32) (hx : x ≠ F32.nan) (hx' : x' ≠ F32.nan)
    (hle : F32.lt x x' = false) (h : F32.lt x l = true) : F32.lt x' l = true := by
  cases x <;> cases x' <;> cases l <;> simp_all [F32.lt] <;> omega

/-- If `m < x'` and `x' ≤ x` then `m < x`. -/
theorem F32.lt_of_lt_of_le (x x' m : F32) (hx : x ≠ F32.nan) (hx' : x' ≠ F32.nan)
    (hle : F32.lt x x' = false) (h : F32.lt m x' = true) : F32.lt m x = true := by
  cases x <;> cases x' <;> cases m <;> simp_all [F32.lt] <;> omega

/-- Nothing is below minus infinity. -/
theorem F32.lt_neg_inf (x : F32) : F32.lt x (F32.inf true) = false := by
  rcases x with a | (_ | _) | _ <;> rfl

/-- Nothing is below NaN. -/
theorem F32.lt_nan (x : F32) : F32.lt x F32.nan = false := by
  rcases x with a | (_ | _) | _ <;> rfl

/-- The sum is monotone in its second term as far as the test `size + f < l` goes. -/
theorem F32.add_lt_mono (size f f' l : F32) (hf : f ≠ F32.nan) (hf' : f' ≠ F32.nan)
    (hle : F32.lt f f' = false) (h : F32.lt (F32.add size f) l = true) :
    F32.lt (F32.add size f') l = true := by
  rcases size with a | (_ | _) | _ <;> rcases f with b | (_ | _) | _ <;>
    rcases f' with b' | (_ | _) | _ <;>
    first
    | exact absurd rfl hf
    | exact absurd rfl hf'
    | (simp only [F32.add] at h ⊢
       exact F32.lt_of_le_of_lt _ _ l (F32.round_ne_nan _ _ _) (F32.round_ne_nan _ _ _)
         (F32.round_signed_mono (a + b) (a + b') (by simpa [F32.lt] using hle)) h)
    | (rcases l with c | (_ | _) | _ <;>
        (try simp only [F32.add] at h ⊢) <;>
        (try rw [F32.lt_neg_inf] at h) <;>
        (try rw [F32.lt_nan] at h) <;>
        simp_all [F32.add, F32.lt])

/-- The size in MB of a non-negative number of bytes. -/
theorem F32.sizeMB_shape (S : Int) (h0 : 0 ≤ S) :
    F32.mul (F32.ofInt S) MB
      = if F32.overflowUnits ≤ F32.roundUnits (S.natAbs * 2 ^ 149) 0 then F32.inf false
        else F32.round false (F32.roundUnits (S.natAbs * 2 ^ 149) 0 * (8796093 * 2 ^ 106)) 149 := by
  have hneg : ¬ S < 0 := by omega
  unfold F32.ofInt F32.round MB
  simp only [hneg, decide_False, Bool.false_eq_true, if_false]
  split
  · simp only [F32.mul]
    norm_num
  · simp only [F32.mul]
    have h1 : ¬ ((F32.roundUnits (S.natAbs * 2 ^ 149) 0 : Nat) : Int) < 0 := by omega
    have h2 : ¬ ((8796093 * 2 ^ 106 : Int) < 0) := by norm_num
    have h3 : (8796093 * 2 ^ 106 : Int).natAbs = 8796093 * 2 ^ 106 := by
      rw [Int.natAbs_mul, Int.natAbs_pow]
      rfl
    simp only [h1, h2, h3, decide_False, Bool.xor_false, Int.natAbs_ofNat, Bool.false_eq_true,
      if_false, Int.natAbs_cast]
    unfold F32.round
    simp only [Bool.false_eq_true, if_false]

/-- The size in MB is monotone on non-negative byte counts, and never NaN. -/
theorem F32.sizeMB_mono (S S' : Int) (h0 : 0 ≤ S') (h : S' ≤ S) :
    F32.mul (F32.ofInt S) MB ≠ F32.nan ∧ F32.mul (F32.ofInt S') MB ≠ F32.nan ∧
    F32.lt (F32.mul (F32.ofInt S) MB) (F32.mul (F32.ofInt S') MB) = false := by
  rw [F32.sizeMB_shape S (by omega), F32.sizeMB_shape S' h0]
  have hu := F32.roundUnits_mono (S'.natAbs * 2 ^ 149) (S.natAbs * 2 ^ 149) 0
    (Nat.mul_le_mul_right _ (by omega))
  refine ⟨?_, ?_, ?_⟩
  · split
    · simp
    · exact F32.round_ne_nan _ _ _
  · split
    · simp
    · exact F32.round_ne_nan _ _ _
  · split
    · split
      · simp [F32.lt]
      · generalize F32.round false _ 149 = x
        cases x <;> simp [F32.lt]
    · rw [if_neg (by omega)]
      exact F32.round_mono _ _ 149 (Nat.mul_le_mul_right _ hu)

/-- `CheckLimits` returns nil exactly when the three checks do. -/
theorem CheckLimits_pass_iff (s : Store) (model : Item) :
    (CheckLimits s (some model)).err = none
      ↔ (checkPerUserLimits s model (fileSizeMB model)).err = none
        ∧ (checkPerGroupLimit s model (fileSizeMB model)).err = none
        ∧ (checkPerItemTypeLimit s model (fileSizeMB model)).err = none := by
  unfold CheckLimits
  dsimp only
  split
  · rename_i e h1
    simp [h1]
  · rename_i h1
    split
    · rename_i e h2
      simp [h1, h2]
    · rename_i h2
      split
      · rename_i e h3
        simp [h1, h2, h3]
      · rename_i h3
        simp [h1, h2, h3]

/-- The per-user check is monotone in the size of the candidate. -/
theorem checkPerUserLimits_mono (s : Store) (model model' : Item) (f f' : F32)
    (hc : model'.CreatedBy = model.CreatedBy)
    (hf : f ≠ F32.nan) (hf' : f' ≠ F32.nan) (hle : F32.lt f f' = false)
    (h : (checkPerUserLimits s model f).err = none) :
    (checkPerUserLimits s model' f').err = none := by
  cases hu : GetUserByUserID s model.CreatedBy with
  | none =>
    unfold checkPerUserLimits at h
    simp [hu] at h
  | some user =>
    cases hq : getLimitUtilizationForUser s model.CreatedBy with
    | none =>
      unfold checkPerUserLimits at h
      simp [hu, hq] at h
    | some pair =>
      obtain ⟨count, size⟩ := pair
      have h1 := (checkPerUserLimits_pass_iff s model f user count size hu hq).mp h
      exact (checkPerUserLimits_pass_iff s model' f' user count size (hc ▸ hu) (hc ▸ hq)).mpr
        ⟨h1.1, F32.add_lt_mono size f f' _ hf hf' hle h1.2⟩

/-- The per-group check is monotone in the size of the candidate. -/
theorem checkPerGroupLimit_mono (s : Store) (model model' : Item) (f f' : F32)
    (hc : model'.GroupID = model.GroupID)
    (hf : f ≠ F32.nan) (hf' : f' ≠ F32.nan) (hle : F32.lt f f' = false)
    (h : (checkPerGroupLimit s model f).err = none) :
    (checkPerGroupLimit s model' f').err = none := by
  cases hg : GetGroupDetailUsingID s model.GroupID with
  | none =>
    unfold checkPerGroupLimit at h
    simp [hg] at h
  | some group =>
    cases hq : getLimitUtilizationForGroup s model.GroupID with
    | none =>
      unfold checkPerGroupLimit at h
      simp [hg, hq] at h
    | some pair =>
      obtain ⟨count, size⟩ := pair
      have h1 := (checkPerGroupLimit_pass_iff s model f group count size hg hq).mp h
      exact (checkPerGroupLimit_pass_iff s model' f' group count size (hc ▸ hg) (hc ▸ hq)).mpr
        ⟨h1.1, F32.add_lt_mono size f f' _ hf hf' hle h1.2⟩

/-- The per-item-type check is monotone in the size of the candidate. -/
theorem checkPerItemTypeLimit_mono (s : Store) (model model' : Item) (f f' : F32)
    (hg : model'.GroupID = model.GroupID) (ht : model'.ItemTypeID = model.ItemTypeID)
    (hf : f ≠ F32.nan) (hf' : f' ≠ F32.nan) (hle : F32.lt f f' = false)
    (h : (checkPerItemTypeLimit s model f).err = none) :
    (checkPerItemTypeLimit s model' f').err = none := by
  unfold checkPerItemTypeLimit at h ⊢
  rw [hg, ht]
  cases hty : GetItemTypeDetails s model.ItemTypeID with
  | none => simp [hty] at h
  | some itemType =>
    cases hq : getLimitUtilizationForGroup s model.GroupID with
    | none => simp [hty, hq] at h
    | some pair =>
      simp only [hty, hq] at h ⊢
      by_cases hgt : F32.gt f itemType.MaxItemSpace = true
      · simp [hgt] at h
      · by_cases hgt' : F32.gt f' itemType.MaxItemSpace = true
        · exact absurd (F32.lt_of_lt_of_le f f' _ hf hf' hle hgt') hgt
        · simp [hgt']

/-- C30. `Item.CheckLimits` is monotone in the size of the candidate: with the store,
the creator, the group and the item type fixed, if a candidate of `model.ItemSize`
bytes is admitted (nil is returned) then so is the candidate of any size `size'`
with `0 ≤ size' ≤ model.ItemSize`. -/
theorem CheckLimits_monotone_in_size (s : Store) (model : Item) (size' : Int)
    (h0 : 0 ≤ size') (hle : size' ≤ model.ItemSize)
    (hadm : (CheckLimits s (some model)).err = none) :
    (CheckLimits s (some { model with ItemSize := size' })).err = none := by
  have hsize := F32.sizeMB_mono model.ItemSize size' h0 hle
  have hpass := (CheckLimits_pass_iff s model).mp hadm
  rw [CheckLimits_pass_iff]
  exact ⟨checkPerUserLimits_mono s model _ _ _ rfl hsize.1 hsize.2.1 hsize.2.2 hpass.1,
    checkPerGroupLimit_mono s model _ _ _ rfl hsize.1 hsize.2.1 hsize.2.2 hpass.2.1,
    checkPerItemTypeLimit_mono s model _ _ _ rfl rfl hsize.1 hsize.2.1 hsize.2.2 hpass.2.2⟩

set_option maxRecDepth 8000 in
set_option exponentiation.threshold 2000 in
/-- C30 at `roomyStore`: the candidate of 1000 bytes is admitted, hence so is the one
of 10 bytes. -/
theorem CheckLimits_monotone_in_size_witness :
    (CheckLimits roomyStore (some (candidate 1000))).err = none ∧
    (CheckLimits roomyStore (some { candidate 1000 with ItemSize := 10 })).err = none :=
  ⟨by decide,
    CheckLimits_monotone_in_size roomyStore (candidate 1000) 10 (by decide) (by decide)
      (by decide)⟩

set_option maxRecDepth 8000 in
set_option exponentiation.threshold 2000 in
/-- C4, as stated, fails: in `smallItemStore` 80 bytes are stored and the user cap is
100 MB; a candidate of 99,999,920 bytes brings the total to exactly 100,000,000
bytes, the cap, and `CheckLimits` admits it, because the `float32` sum of the two
sizes in MB is below 100.  A candidate four bytes larger is admitted as well. -/
theorem exact_cap_total_admitted :
    (80 : Int) + 99999920 = 100 * 10 ^ 6 ∧
    GetUserByUserID smallItemStore 1 = some roomyUser ∧
    roomyUser.MaxItemSpace = F32.ofInt 100 ∧
    (CheckLimits smallItemStore (some (candidate 99999920))).err = none ∧
    F32.lt (F32.add (F32.mul (F32.ofInt 80) MB) (fileSizeMB (candidate 99999920)))
      (F32.ofInt 100) = true ∧
    (CheckLimits smallItemStore (some (candidate 99999924))).err = none := by
  decide

set_option maxRecDepth 8000 in
set_option exponentiation.threshold 2000 in
/-- C3. A row with `uploaded = false` counts toward the quota.  User 1 of `freshStore`
is capped at one item and has none.  An upload whose bytes cannot be read leaves its
row in `Items` with `Uploaded = false` and sets the flash error "Cannot read file";
the candidate that `CheckLimits` admitted before is now refused with "User is
limited to upload only 1 items". -/
theorem failed_upload_row_counts_toward_quota :
    (CheckLimits freshStore (some (candidate 2000))).err = none ∧
    afterFailedUpload.items.map (fun i => (i.ItemID, i.CreatedBy, i.Uploaded))
      = [(2, 1, false)] ∧
    getKey (Controllers.Item.UploadHandler freshStore {} uploaderRequest sampleDigest
        1700000000 2 [1, 2, 3] "1" "d" "pic1"
        { sampleFile with reads := false }).2.2.1.flashOut "error" = "Cannot read file" ∧
    (CheckLimits afterFailedUpload (some (candidate 2000))).err
      = some (Err.userItemCount 1) ∧
    (Err.userItemCount 1).Error = "User is limited to upload only 1 items" := by
  decide

end SPShare
